import Mathlib

set_option maxRecDepth 8000

namespace Pdbtbx

/-- Text is modelled as a list of characters. The Rust source uses `String`
(UTF-8 bytes) for tag dispatch and `Vec<char>` for field slicing; for the
ASCII lines of the PDB format the byte length and the character count agree,
so a single character-list representation is used throughout. -/
abbrev Chars := List Char

/-- Severity levels of diagnostics, as used by `PDBError::new` calls in
`src/read/parser.rs` (the enum itself lives in the error module). -/
inductive ErrorLevel where
  | GeneralWarning
  | LooseWarning
  | StrictWarning
  | BreakingError
  deriving DecidableEq

/-- Location information attached to a diagnostic. `show_file` corresponds to
`Context::show(filename)` (the Rust constructor is named `show`, which is a
Lean keyword), `full_line` to `Context::full_line(linenumber, line)` and
`line` to `Context::line(linenumber, line, start, length)`. -/
inductive Context where
  | show_file (filename : String)
  | full_line (linenumber : Nat) (line : Chars)
  | line (linenumber : Nat) (l : Chars) (start length : Nat)
  deriving DecidableEq

/-- A located, graded diagnostic, mirroring `PDBError` with its level, short
description, long description and context. The long description is kept as a
character list because the source builds it with `format!` from runtime
values. -/
structure PDBError where
  level : ErrorLevel
  short_description : String
  long_description : Chars
  context : Context
  deriving DecidableEq

/-- Outcome of running a fallible piece of the parser. `ok` is a normal
return value, `err` is a returned `PDBError` (Rust `Err`), and `panic` is a
Rust runtime abort (out-of-range slice index, `expect`, `unwrap`, `panic!`).
The source distinguishes returned errors from panics, so the embedding does
too. -/
inductive Res (α : Type) where
  | ok (a : α)
  | err (e : PDBError)
  | panic
  deriving DecidableEq

instance : Monad Res where
  pure := Res.ok
  bind x f := match x with
    | .ok a => f a
    | .err e => .err e
    | .panic => .panic

/-- Index into a character vector, `chars[i]` in Rust: a panic when the index
is out of range. -/
def getc (cs : Chars) (i : Nat) : Res Char :=
  match cs[i]? with
  | some c => .ok c
  | none => .panic

/-- Slice `&chars[a..b]` of a character vector: a panic when the range is
invalid or reaches past the end. -/
def slice (cs : Chars) (a b : Nat) : Res Chars :=
  if a ≤ b ∧ b ≤ cs.length then .ok ((cs.drop a).take (b - a)) else .panic

/-- Slice `&chars[a..]`: a panic when the start is past the end. -/
def sliceFrom (cs : Chars) (a : Nat) : Res Chars :=
  if a ≤ cs.length then .ok (cs.drop a) else .panic

/-- Remove all whitespace, as `split_whitespace().collect::<String>()` does
before numeric parsing (interior whitespace is discarded as well). -/
def stripWS (cs : Chars) : Chars := cs.filter (fun c => !c.isWhitespace)

/-- Numeric value of a nonempty all-digit character list, `None` otherwise. -/
def parseDigits (cs : Chars) : Option Nat :=
  if cs ≠ [] ∧ cs.all (·.isDigit) then
    some (cs.foldl (fun n c => n * 10 + (c.toNat - '0'.toNat)) 0)
  else none

/-- Decimal parsing of `usize::from_str`: optional leading `+`, then digits.
Overflow of the machine word is not modelled. -/
def parseNat (cs : Chars) : Option Nat :=
  match cs with
  | '+' :: rest => parseDigits rest
  | _ => parseDigits cs

/-- Decimal parsing of `isize::from_str`: optional sign, then digits. -/
def parseInt (cs : Chars) : Option Int :=
  match cs with
  | '+' :: rest => (parseDigits rest).map (fun n => (n : Int))
  | '-' :: rest => (parseDigits rest).map (fun n => -(n : Int))
  | _ => (parseDigits cs).map (fun n => (n : Int))

/-- Split off an optional leading sign, returning `true` for a minus. -/
def stripSign (cs : Chars) : Bool × Chars :=
  match cs with
  | '+' :: rest => (false, rest)
  | '-' :: rest => (true, rest)
  | _ => (false, cs)

/-- Split a mantissa at its first exponent marker `e` or `E`, if any. -/
def splitExp (cs : Chars) : Chars × Option Chars :=
  match cs.span (fun c => c ≠ 'e' ∧ c ≠ 'E') with
  | (mant, []) => (mant, none)
  | (mant, _ :: ex) => (mant, some ex)

/-- Decimal parsing of `f64::from_str`, restricted to finite decimal notation
with an optional exponent (the special forms `inf` and `NaN` never occur in
the fixed-column numeric fields and are not modelled). Floating values are
embedded as exact rationals; the value of `[sign] ip . fp e E` is the signed
combined digit string times `10 ^ E` divided by `10 ^ fp.length`, assembled
with `mkRat` so that it is the rational `num / den` in normal form. -/
def parseF64 (cs : Chars) : Option ℚ :=
  let (neg, cs1) := stripSign cs
  let (mant, expPart) := splitExp cs1
  let (ip, fp) :=
    match mant.span (fun c => c ≠ '.') with
    | (ip, []) => (ip, ([] : Chars))
    | (ip, _ :: fp) => (ip, fp)
  if (ip ++ fp) ≠ [] ∧ (ip ++ fp).all (·.isDigit) then
    let d : Nat := (ip ++ fp).foldl (fun n c => n * 10 + (c.toNat - '0'.toNat)) 0
    let num : Int := if neg then -(d : Int) else (d : Int)
    match expPart with
    | none => some (mkRat num (10 ^ fp.length))
    | some ex =>
      let (eneg, ed) := stripSign ex
      match parseDigits ed with
      | none => none
      | some e =>
        if eneg then some (mkRat num (10 ^ (fp.length + e)))
        else some (mkRat (num * (10 : Int) ^ e) (10 ^ fp.length))
  else none

/-- Diagnostic produced by `parse_number` when the stripped text does not
parse as a number of the requested kind. -/
def notANumber (context : Context) : PDBError :=
  { level := .BreakingError
    short_description := "Not a number"
    long_description := "The text presented is not a number of the right kind.".toList
    context := context }

/-- Instantiation of `parse_number::<usize>`: strip whitespace, parse, and
report a breaking "Not a number" diagnostic on failure. -/
def parse_nat (context : Context) (input : Chars) : Res Nat :=
  match parseNat (stripWS input) with
  | some v => .ok v
  | none => .err (notANumber context)

/-- Instantiation of `parse_number::<isize>`. -/
def parse_int (context : Context) (input : Chars) : Res Int :=
  match parseInt (stripWS input) with
  | some v => .ok v
  | none => .err (notANumber context)

/-- Instantiation of `parse_number::<f64>`, with floats embedded as exact
rationals. -/
def parse_f64 (context : Context) (input : Chars) : Res ℚ :=
  match parseF64 (stripWS input) with
  | some v => .ok v
  | none => .err (notANumber context)

/-- Printable ASCII guard. Modelled from the spec: the design notes (section 9)
describe construction of atoms and chains panicking on "invalid characters";
the atom and chain modules are not under src, so validity is modelled as
every character being printable ASCII. -/
def validTextChar (c : Char) : Bool := 32 ≤ c.toNat && c.toNat ≤ 126

/-- An Atom of the hierarchical model: serial number, 4-character name,
coordinates, occupancy, temperature factor, element symbol, signed formal
charge and the optional anisotropic temperature factor tensor (a 2 by 3
matrix of rationals). -/
structure Atom where
  serial_number : Nat
  name : Chars
  x : ℚ
  y : ℚ
  z : ℚ
  occupancy : ℚ
  b_factor : ℚ
  element : Chars
  charge : Int
  anisotropic_temperature_factors : Option (List (List ℚ)) := none
  deriving DecidableEq

/-- Modelled from the spec: `Atom::new` (the atom module is not under src)
returns the atom, or `None` when the name or element contains invalid
characters, which the parser turns into a panic via `expect`. -/
def Atom.new (serial_number : Nat) (name : Chars) (x y z occupancy b_factor : ℚ)
    (element : Chars) (charge : Int) : Option Atom :=
  if name.all validTextChar && element.all validTextChar then
    some { serial_number, name, x, y, z, occupancy, b_factor, element, charge }
  else none

/-- Setter used by the ANISOU record handler. -/
def Atom.set_anisotropic_temperature_factors (a : Atom) (factors : List (List ℚ)) : Atom :=
  { a with anisotropic_temperature_factors := some factors }

/-- A Residue: serial number, 3-character name and its ordered atoms. -/
structure Residue where
  serial_number : Nat
  name : Chars
  atoms : List Atom
  deriving DecidableEq

/-- A Chain: single-character id and its ordered residues. -/
structure Chain where
  id : Char
  residues : List Residue
  deriving DecidableEq

/-- Modelled from the spec: `Chain::new` (the chain module is not under src)
yields an empty chain, or `None` on an invalid id character, which the
parser turns into a panic via `expect`. -/
def Chain.new (id : Char) : Option Chain :=
  if validTextChar id then some { id, residues := [] } else none

/-- Modelled from the spec: the residue upsert of `Chain::add_atom` (the
chain module is not under src) follows section 4.3 of the spec: locate a
residue by serial number via linear scan — the name is only used to populate
a newly created residue, not as a matching key — append the atom to it, or
append a fresh residue at the end when none matches. -/
def addToResidues (new_atom : Atom) (residue_serial_number : Nat)
    (residue_name : Chars) : List Residue → List Residue
  | [] => [{ serial_number := residue_serial_number, name := residue_name,
             atoms := [new_atom] }]
  | r :: rest =>
    if r.serial_number = residue_serial_number then
      { r with atoms := r.atoms ++ [new_atom] } :: rest
    else r :: addToResidues new_atom residue_serial_number residue_name rest

/-- Modelled from the spec: `Chain::add_atom` (the chain module is not under
src) follows section 4.3 of the spec via `addToResidues`. -/
def Chain.add_atom (c : Chain) (new_atom : Atom) (residue_serial_number : Nat)
    (residue_name : Chars) : Chain :=
  { c with residues := addToResidues new_atom residue_serial_number residue_name c.residues }

/-- Modelled from the spec: `Chain::atom_count` sums the atoms of the
residues of the chain. -/
def Chain.atom_count (c : Chain) : Nat :=
  (c.residues.map (fun r => r.atoms.length)).sum

/-- Atoms of a chain in iteration order: residues in order, atoms within a
residue in order. -/
def Chain.atomsList (c : Chain) : List Atom :=
  c.residues.flatMap (fun r => r.atoms)

/-- A Model: serial number plus the two partitioned ordered chain lists,
standard and hetero, as in `src/structs/model.rs`. -/
structure Model where
  serial_number : Nat
  chains : List Chain
  hetero_chains : List Chain
  deriving DecidableEq

/-- `Model::new`. -/
def Model.new (serial_number : Nat) : Model :=
  { serial_number, chains := [], hetero_chains := [] }

/-- `Model::atom_count`: the atoms of the standard chains only, disregarding
all hetero atoms (model.rs lines 52-56). -/
def Model.atom_count (m : Model) : Nat :=
  (m.chains.map Chain.atom_count).sum

/-- `Model::total_atom_count`: atoms of the standard and the hetero chains. -/
def Model.total_atom_count (m : Model) : Nat :=
  ((m.chains ++ m.hetero_chains).map Chain.atom_count).sum

/-- `Model::all_atoms`: the standard chains flattened, then the hetero chains
flattened (model.rs lines 269-277). -/
def Model.all_atoms (m : Model) : List Atom :=
  m.chains.flatMap Chain.atomsList ++ m.hetero_chains.flatMap Chain.atomsList

/-- Update the first chain with the given id by adding the atom to it,
mirroring the linear scan of `Model::add_atom`; `none` when no chain has the
id. -/
def addAtomToChains (new_atom : Atom) (residue_serial_number : Nat)
    (residue_name : Chars) (chain_id : Char) : List Chain → Option (List Chain)
  | [] => none
  | c :: rest =>
    if c.id = chain_id then
      some (c.add_atom new_atom residue_serial_number residue_name :: rest)
    else
      (addAtomToChains new_atom residue_serial_number residue_name chain_id rest).map
        (fun rest2 => c :: rest2)

/-- The shared find-or-create step of `Model::add_atom` (model.rs lines
299-323) and `Model::add_hetero_atom` (lines 335-359), whose bodies are
identical up to the chain list they operate on and the text of the panic: a
fresh chain is constructed first (a panic when the id is invalid), the list
is scanned for the id, and the atom goes into the first matching chain, or
into the fresh chain which is appended at the end. -/
def partUpsert (cs : List Chain) (new_atom : Atom) (chain_id : Char)
    (residue_serial_number : Nat) (residue_name : Chars) : Res (List Chain) :=
  match Chain.new chain_id with
  | none => .panic
  | some new_chain =>
    .ok ((addAtomToChains new_atom residue_serial_number residue_name chain_id cs).getD
      (cs ++ [new_chain.add_atom new_atom residue_serial_number residue_name]))

/-- `Model::add_atom`: upsert into the standard partition. -/
def Model.add_atom (m : Model) (new_atom : Atom) (chain_id : Char)
    (residue_serial_number : Nat) (residue_name : Chars) : Res Model :=
  match partUpsert m.chains new_atom chain_id residue_serial_number residue_name with
  | .ok cs => .ok { m with chains := cs }
  | .err e => .err e
  | .panic => .panic

/-- `Model::add_hetero_atom`: upsert into the hetero partition. -/
def Model.add_hetero_atom (m : Model) (new_atom : Atom) (chain_id : Char)
    (residue_serial_number : Nat) (residue_name : Chars) : Res Model :=
  match partUpsert m.hetero_chains new_atom chain_id residue_serial_number residue_name with
  | .ok cs => .ok { m with hetero_chains := cs }
  | .err e => .err e
  | .panic => .panic

/-- Update the last atom with the given serial number in a list of atoms,
setting its anisotropic temperature factors; `none` when no atom matches.
Searching the tail first realizes the reverse scan of the ANISOU handler. -/
def updLastAtoms (s : Nat) (factors : List (List ℚ)) : List Atom → Option (List Atom)
  | [] => none
  | a :: rest =>
    match updLastAtoms s factors rest with
    | some rest2 => some (a :: rest2)
    | none =>
      if a.serial_number = s then
        some (a.set_anisotropic_temperature_factors factors :: rest)
      else none

/-- Lift the reverse update to the residues of a chain, preferring later
residues. -/
def updLastResidues (s : Nat) (factors : List (List ℚ)) : List Residue → Option (List Residue)
  | [] => none
  | r :: rest =>
    match updLastResidues s factors rest with
    | some rest2 => some (r :: rest2)
    | none =>
      (updLastAtoms s factors r.atoms).map (fun as2 => { r with atoms := as2 } :: rest)

/-- Lift the reverse update to a list of chains, preferring later chains. -/
def updLastChains (s : Nat) (factors : List (List ℚ)) : List Chain → Option (List Chain)
  | [] => none
  | c :: rest =>
    match updLastChains s factors rest with
    | some rest2 => some (c :: rest2)
    | none =>
      (updLastResidues s factors c.residues).map (fun rs2 => { c with residues := rs2 } :: rest)

/-- The ANISOU arm of the builder (parser.rs lines 113-128): walk
`all_atoms_mut().rev()` — the flattened standard-then-hetero iteration order,
reversed, so the hetero chains are tried first — and set the tensor of the
first atom whose serial number matches, reporting whether one was found. -/
def Model.setAnisouRev (m : Model) (s : Nat) (factors : List (List ℚ)) : Model × Bool :=
  match updLastChains s factors m.hetero_chains with
  | some hcs => ({ m with hetero_chains := hcs }, true)
  | none =>
    match updLastChains s factors m.chains with
    | some cs => ({ m with chains := cs }, true)
    | none => (m, false)

/-- Modelled from the spec: a 3 by 4 transform built one row at a time across
up to three file records (spec section 3); the transformation module is not
under src. Each row is `none` until its record has been seen, which is the
required per-row partial-construction flag. -/
structure TMatrix where
  row0 : Option (List ℚ) := none
  row1 : Option (List ℚ) := none
  row2 : Option (List ℚ) := none
  deriving DecidableEq

/-- Fresh matrix with no rows supplied. -/
def TMatrix.new : TMatrix := {}

/-- Set one row (row indices 0, 1 and 2 as passed by the lexer dispatch). -/
def TMatrix.set_row (t : TMatrix) (n : Nat) (row : List ℚ) : TMatrix :=
  match n with
  | 0 => { t with row0 := some row }
  | 1 => { t with row1 := some row }
  | _ => { t with row2 := some row }

/-- Valid once all three rows have been supplied. -/
def TMatrix.valid (t : TMatrix) : Bool :=
  t.row0.isSome && t.row1.isSome && t.row2.isSome

/-- Modelled from the spec: a non-crystallographic symmetry matrix keyed by
serial number, with the `contained` flag of the MTRIX record (spec sections 3
and 4.2); the struct module is not under src. -/
structure MtriX where
  serial_number : Nat := 0
  contained : Bool := false
  mat : TMatrix := {}
  deriving DecidableEq

/-- `MtriX::new`. -/
def MtriX.new : MtriX := {}

/-- Set one row of the matrix of an MTRIX entry. -/
def MtriX.set_row (mx : MtriX) (n : Nat) (row : List ℚ) : MtriX :=
  { mx with mat := mx.mat.set_row n row }

/-- Valid once all rows are there. -/
def MtriX.valid (mx : MtriX) : Bool := mx.mat.valid

/-- Unit cell: three lengths and three angles. -/
structure UnitCell where
  a : ℚ
  b : ℚ
  c : ℚ
  alpha : ℚ
  beta : ℚ
  gamma : ℚ
  deriving DecidableEq

/-- Symmetry descriptor holding the space-group name. -/
structure Symmetry where
  spacegroup : Chars
  deriving DecidableEq

/-- Modelled from the spec: the space-group lookup is an out-of-scope external
collaborator (spec sections 1 and 6), so `Symmetry::new` is modelled as
accepting any name with a non-whitespace character and rejecting blank names;
the parser turns a rejection into a panic. -/
def Symmetry.new (spacegroup : Chars) : Option Symmetry :=
  if stripWS spacegroup ≠ [] then some { spacegroup } else none

/-- Modelled from the spec: the remark-type-number lookup is an external
collaborator answering "is this remark-type-number valid" (spec section 6);
modelled as accepting the three-digit range of the format. -/
def valid_remark_type_number (n : Nat) : Bool := n ≤ 999

/-- The top-level structure being built: remarks, models, optional unit cell,
symmetry, scale and origin matrices and the non-crystallographic symmetry
matrices. Field holders for PDB live outside src, so the container is
modelled from the spec (section 3); every operation on it used by the parser
is spelled out below, following its call sites in parser.rs. -/
structure PDB where
  remarks : List (Nat × Chars) := []
  models : List Model := []
  unit_cell : Option UnitCell := none
  symmetry : Option Symmetry := none
  scale : Option TMatrix := none
  origx : Option TMatrix := none
  mtrix : List MtriX := []
  deriving DecidableEq

/-- `PDB::new`. -/
def PDB.new : PDB := {}

/-- `PDB::add_remark`: append under the type number, duplicates allowed. -/
def PDB.add_remark (p : PDB) (num : Nat) (text : Chars) : PDB :=
  { p with remarks := p.remarks ++ [(num, text)] }

/-- `PDB::add_model`: append to the ordered model sequence. -/
def PDB.add_model (p : PDB) (m : Model) : PDB :=
  { p with models := p.models ++ [m] }

/-- `PDB::remark_count`. -/
def PDB.remark_count (p : PDB) : Nat := p.remarks.length

/-- `PDB::total_atom_count`: total over all models and both partitions (spec
section 4.4). -/
def PDB.total_atom_count (p : PDB) : Nat :=
  (p.models.map Model.total_atom_count).sum

/-- `PDB::has_scale`. -/
def PDB.has_scale (p : PDB) : Bool := p.scale.isSome

/-- `PDB::has_origx`. -/
def PDB.has_origx (p : PDB) : Bool := p.origx.isSome

/-- Modelled from the spec: `validate` runs after the structure is built and
can only compare recomputed counts "against the corresponding field of a
declared checksum record, if one was present" (spec section 4.4); the built
structure retains no checksum record — the parser consumes the MASTER numbers
inline and never stores them — so the post-pass has nothing to compare
against and is modelled as contributing no diagnostics. -/

def validate (_p : PDB) : List PDBError := []

/-- Decoded records, one per recognised line, as in the lexitem module
(declared outside src; the variants and field lists are exactly the ones the
parser constructs and consumes). -/
inductive LexItem where
  | Remark (num : Nat) (text : Chars)
  | Atom (hetero : Bool) (serial_number : Nat) (name : Chars) (alt_loc : Char)
      (residue_name : Chars) (chain_id : Char) (residue_serial_number : Nat)
      (insertion : Char) (x y z occupancy b_factor : ℚ) (segment_id : Chars)
      (element : Chars) (charge : Int)
  | Anisou (serial_number : Nat) (name : Chars) (alt_loc : Char)
      (residue_name : Chars) (chain_id : Char) (residue_serial_number : Nat)
      (insertion : Char) (factors : List (List ℚ)) (segment_id : Chars)
      (element : Chars) (charge : Chars)
  | Model (number : Nat)
  | Scale (row : Nat) (data : List ℚ)
  | OrigX (row : Nat) (data : List ℚ)
  | MtriX (row : Nat) (serial_number : Nat) (data : List ℚ) (given : Bool)
  | Crystal (a b c alpha beta gamma : ℚ) (spacegroup : Chars) (z : Nat)
  | Master (num_remark num_empty num_het num_helix num_sheet num_turn num_site
      num_xform num_coord num_ter num_connect num_seq : Nat)
  | EndModel
  | TER
  | End
  | Empty
  deriving DecidableEq

/-- The "Could not recognise tag." general warning of the dispatch. -/
def unrecognisedTag (linenumber : Nat) (line : Chars) : PDBError :=
  { level := .GeneralWarning
    short_description := "Could not recognise tag."
    long_description := "Could not parse the tag above, it is possible that it is valid PDB but just not supported right now.".toList
    context := .full_line linenumber line }

/-- Lex a REMARK line (parser.rs lines 264-293). -/
def lex_remark (linenumber : Nat) (line : Chars) : Res LexItem := do
  let s ← slice line 7 10
  let number ← parse_nat (.line linenumber line 7 3) s
  if ¬ valid_remark_type_number number then
    .err { level := .StrictWarning
           short_description := "Remark type number invalid"
           long_description := "The remark-type-number is not valid, see wwPDB v3.30 for all valid numbers.".toList
           context := .line linenumber line 7 3 }
  else if line.length > 11 then
    if line.length - 11 > 70 then
      .err { level := .LooseWarning
             short_description := "Remark too long"
             long_description := "The REMARK is too long, the max is 70 characters.".toList
             context := .line linenumber line 11 (line.length - 11) }
    else pure (.Remark number (line.drop 11))
  else pure (.Remark number [])

/-- Lex a MODEL line (parser.rs lines 298-307). -/
def lex_model (linenumber : Nat) (line : Chars) : Res LexItem := do
  let rest ← sliceFrom line 6
  let number ← parse_nat (.line linenumber line 6 (line.length - 6)) (stripWS rest)
  pure (.Model number)

/-- Diagnostic for a non-numeric charge digit, scoped to column 78. -/
def chargeNotNumeric (linenumber : Nat) (line : Chars) : PDBError :=
  { level := .BreakingError
    short_description := "Atom charge is not correct"
    long_description := "The charge is not numeric, it is defined to be [0-9][+-], so two characters in total.".toList
    context := .line linenumber line 78 1 }

/-- Diagnostic for a malformed charge sign, scoped to column 79. -/
def chargeNotSigned (linenumber : Nat) (line : Chars) : PDBError :=
  { level := .BreakingError
    short_description := "Atom charge is not correct"
    long_description := "The charge is not properly signed, it is defined to be [0-9][+-], so two characters in total.".toList
    context := .line linenumber line 79 1 }

/-- The not-both-blank continuation of the charge block of `lex_atom`
(parser.rs lines 351-370): reject a non-digit at column 78, then a sign at
column 79 that is neither plus nor minus, then combine digit and sign. -/
def lexAtomChargeTail (linenumber : Nat) (line : Chars) (c78 : Char) : Res Int :=
  if ¬ c78.isDigit then .err (chargeNotNumeric linenumber line)
  else
    match getc line 79 with
    | .ok c79 =>
      if c79 ≠ '-' ∧ c79 ≠ '+' then .err (chargeNotSigned linenumber line)
      else .ok (if c79 = '-' then -(((c78.toNat - '0'.toNat) : Nat) : Int)
                else (((c78.toNat - '0'.toNat) : Nat) : Int))
    | .err e => .err e
    | .panic => .panic

/-- The charge block of `lex_atom` (parser.rs lines 349-371). The guard is
`chars.len() >= 79 && !(chars[78] == ' ' && chars[79] == ' ')` with Rust
short-circuit evaluation: column 79 is read inside the guard only when column
78 is blank, so a 79-character line panics exactly when column 78 is blank or
a digit. -/
def lexAtomCharge (linenumber : Nat) (line : Chars) : Res Int :=
  if 79 ≤ line.length then
    match getc line 78 with
    | .ok c78 =>
      if c78 = ' ' then
        match getc line 79 with
        | .ok c79 =>
          if c79 = ' ' then .ok 0 else lexAtomChargeTail linenumber line c78
        | .err e => .err e
        | .panic => .panic
      else lexAtomChargeTail linenumber line c78
    | .err e => .err e
    | .panic => .panic
  else .ok 0

/-- Lex an ATOM or HETATM line (parser.rs lines 312-391): reject lines
shorter than 54 characters with a breaking "Atom line too short" diagnostic,
then slice the fixed columns; occupancy, temperature factor, segment id,
element and charge are guarded by line-length checks with defaults. -/
def lex_atom (linenumber : Nat) (line : Chars) (hetero : Bool) : Res LexItem :=
  if line.length < 54 then
    .err { level := .BreakingError
           short_description := "Atom line too short"
           long_description := "This line is too short to contain all necessary elements (up to `z` at least).".toList
           context := .full_line linenumber line }
  else do
    let s1 ← slice line 7 11
    let serial_number ← parse_nat (.line linenumber line 7 4) s1
    let c12 ← getc line 12
    let c13 ← getc line 13
    let c14 ← getc line 14
    let c15 ← getc line 15
    let atom_name := [c12, c13, c14, c15]
    let alternate_location ← getc line 16
    let c17 ← getc line 17
    let c18 ← getc line 18
    let c19 ← getc line 19
    let residue_name := [c17, c18, c19]
    let chain_id ← getc line 21
    let s2 ← slice line 22 26
    let residue_serial_number ← parse_nat (.line linenumber line 22 4) s2
    let insertion ← getc line 26
    let sx ← slice line 30 38
    let x ← parse_f64 (.line linenumber line 30 8) sx
    let sy ← slice line 38 46
    let y ← parse_f64 (.line linenumber line 38 8) sy
    let sz ← slice line 46 54
    let z ← parse_f64 (.line linenumber line 46 8) sz
    let occupancy ← if 60 ≤ line.length then do
        let s ← slice line 54 60
        parse_f64 (.line linenumber line 54 6) s
      else pure 1
    let b_factor ← if 66 ≤ line.length then do
        let s ← slice line 60 66
        parse_f64 (.line linenumber line 60 6) s
      else pure 0
    let segment_id ← if 75 ≤ line.length then do
        let a ← getc line 72
        let b ← getc line 73
        let c ← getc line 74
        let d ← getc line 75
        pure [a, b, c, d]
      else pure [' ', ' ', ' ', ' ']
    let element ← if 77 ≤ line.length then do
        let a ← getc line 76
        let b ← getc line 77
        pure [a, b]
      else pure [' ', ' ']
    let charge ← lexAtomCharge linenumber line
    pure (.Atom hetero serial_number atom_name alternate_location residue_name
      chain_id residue_serial_number insertion x y z occupancy b_factor
      segment_id element charge)

/-- Lex an ANISOU line (parser.rs lines 396-444). The source performs no
length check at all before slicing, and its final charge guard reads columns
79 and 80 when the length is exactly 80. -/
def lex_anisou (linenumber : Nat) (line : Chars) : Res LexItem := do
  let s1 ← slice line 7 11
  let serial_number ← parse_nat (.line linenumber line 7 4) s1
  let c12 ← getc line 12
  let c13 ← getc line 13
  let c14 ← getc line 14
  let c15 ← getc line 15
  let atom_name := [c12, c13, c14, c15]
  let alternate_location ← getc line 16
  let c17 ← getc line 17
  let c18 ← getc line 18
  let c19 ← getc line 19
  let residue_name := [c17, c18, c19]
  let chain_id ← getc line 21
  let s2 ← slice line 22 26
  let residue_serial_number ← parse_nat (.line linenumber line 10 10) s2
  let insertion ← getc line 26
  let sa ← slice line 28 35
  let ai ← parse_int (.line linenumber line 28 7) sa
  let sb ← slice line 35 42
  let bi ← parse_int (.line linenumber line 35 7) sb
  let sc ← slice line 42 49
  let ci ← parse_int (.line linenumber line 42 7) sc
  let sd ← slice line 49 56
  let di ← parse_int (.line linenumber line 49 7) sd
  let se ← slice line 56 63
  let ei ← parse_int (.line linenumber line 56 7) se
  let sf ← slice line 63 70
  let fi ← parse_int (.line linenumber line 63 7) sf
  let factors := [[mkRat ai 10000, mkRat bi 10000, mkRat ci 10000],
                  [mkRat di 10000, mkRat ei 10000, mkRat fi 10000]]
  let c72 ← getc line 72
  let c73 ← getc line 73
  let c74 ← getc line 74
  let c75 ← getc line 75
  let segment_id := [c72, c73, c74, c75]
  let c76 ← getc line 76
  let c77 ← getc line 77
  let element := [c76, c77]
  let charge ← if line.length = 80 then do
      let a ← getc line 79
      let b ← getc line 80
      pure [a, b]
    else pure ([' ', ' '] : Chars)
  pure (.Anisou serial_number atom_name alternate_location residue_name
    chain_id residue_serial_number insertion factors segment_id element charge)

/-- Lex a CRYST1 line (parser.rs lines 449-469). -/
def lex_cryst (linenumber : Nat) (line : Chars) : Res LexItem := do
  let sa ← slice line 6 15
  let a ← parse_f64 (.line linenumber line 6 9) sa
  let sb ← slice line 15 24
  let b ← parse_f64 (.line linenumber line 15 9) sb
  let sc ← slice line 24 33
  let c ← parse_f64 (.line linenumber line 24 9) sc
  let sal ← slice line 33 40
  let alpha ← parse_f64 (.line linenumber line 33 7) sal
  let sbe ← slice line 40 47
  let beta ← parse_f64 (.line linenumber line 40 7) sbe
  let sga ← slice line 47 54
  let gamma ← parse_f64 (.line linenumber line 47 7) sga
  let spacegroup ← slice line 55 (min 66 line.length)
  let z ← if line.length > 66 then do
      let s ← sliceFrom line 66
      parse_nat (.line linenumber line 66 (line.length - 66)) s
    else pure 1
  pure (.Crystal a b c alpha beta gamma spacegroup z)

/-- Lex a SCALEn line (parser.rs lines 474-482). -/
def lex_scale (linenumber : Nat) (line : Chars) (row : Nat) : Res LexItem := do
  let sa ← slice line 10 20
  let a ← parse_f64 (.line linenumber line 10 10) sa
  let sb ← slice line 20 30
  let b ← parse_f64 (.line linenumber line 20 10) sb
  let sc ← slice line 30 40
  let c ← parse_f64 (.line linenumber line 30 10) sc
  let sd ← slice line 45 55
  let d ← parse_f64 (.line linenumber line 45 10) sd
  pure (.Scale row [a, b, c, d])

/-- Lex an ORIGXn line (parser.rs lines 487-495). -/
def lex_origx (linenumber : Nat) (line : Chars) (row : Nat) : Res LexItem := do
  let sa ← slice line 10 20
  let a ← parse_f64 (.line linenumber line 10 10) sa
  let sb ← slice line 20 30
  let b ← parse_f64 (.line linenumber line 20 10) sb
  let sc ← slice line 30 40
  let c ← parse_f64 (.line linenumber line 30 10) sc
  let sd ← slice line 45 55
  let d ← parse_f64 (.line linenumber line 45 10) sd
  pure (.OrigX row [a, b, c, d])

/-- Lex an MTRIXn line (parser.rs lines 500-513). -/
def lex_mtrix (linenumber : Nat) (line : Chars) (row : Nat) : Res LexItem := do
  let ss ← slice line 7 10
  let ser ← parse_nat (.line linenumber line 7 4) ss
  let sa ← slice line 10 20
  let a ← parse_f64 (.line linenumber line 10 10) sa
  let sb ← slice line 20 30
  let b ← parse_f64 (.line linenumber line 20 10) sb
  let sc ← slice line 30 40
  let c ← parse_f64 (.line linenumber line 30 10) sc
  let sd ← slice line 45 55
  let d ← parse_f64 (.line linenumber line 45 10) sd
  let given ← if 60 ≤ line.length then do
      let g ← getc line 59
      pure (g == '1')
    else pure false
  pure (.MtriX row ser [a, b, c, d] given)

/-- Lex a MASTER line (parser.rs lines 518-547). -/
def lex_master (linenumber : Nat) (line : Chars) : Res LexItem := do
  let s1 ← slice line 10 15
  let num_remark ← parse_nat (.line linenumber line 10 5) s1
  let s2 ← slice line 15 20
  let num_empty ← parse_nat (.line linenumber line 15 5) s2
  let s3 ← slice line 20 25
  let num_het ← parse_nat (.line linenumber line 20 5) s3
  let s4 ← slice line 25 30
  let num_helix ← parse_nat (.line linenumber line 25 5) s4
  let s5 ← slice line 30 35
  let num_sheet ← parse_nat (.line linenumber line 30 5) s5
  let s6 ← slice line 35 40
  let num_turn ← parse_nat (.line linenumber line 35 5) s6
  let s7 ← slice line 40 45
  let num_site ← parse_nat (.line linenumber line 40 5) s7
  let s8 ← slice line 45 50
  let num_xform ← parse_nat (.line linenumber line 45 5) s8
  let s9 ← slice line 50 55
  let num_coord ← parse_nat (.line linenumber line 50 5) s9
  let s10 ← slice line 55 60
  let num_ter ← parse_nat (.line linenumber line 55 5) s10
  let s11 ← slice line 60 65
  let num_connect ← parse_nat (.line linenumber line 60 5) s11
  let s12 ← slice line 65 70
  let num_seq ← parse_nat (.line linenumber line 65 5) s12
  pure (.Master num_remark num_empty num_het num_helix num_sheet num_turn
    num_site num_xform num_coord num_ter num_connect num_seq)

/-- Tag dispatch of the line loop (parser.rs lines 42-75): lines longer than
6 characters are matched on their first six characters, lines of length 3 to
6 on their first three, shorter non-empty lines are unrecognised and an empty
line lexes to `Empty`. -/
def lexLine (linenumber : Nat) (line : Chars) : Res LexItem :=
  if line.length > 6 then
    let tag := line.take 6
    if tag = "REMARK".toList then lex_remark linenumber line
    else if tag = "ATOM  ".toList then lex_atom linenumber line false
    else if tag = "ANISOU".toList then lex_anisou linenumber line
    else if tag = "HETATM".toList then lex_atom linenumber line true
    else if tag = "CRYST1".toList then lex_cryst linenumber line
    else if tag = "SCALE1".toList then lex_scale linenumber line 0
    else if tag = "SCALE2".toList then lex_scale linenumber line 1
    else if tag = "SCALE3".toList then lex_scale linenumber line 2
    else if tag = "ORIGX1".toList then lex_origx linenumber line 0
    else if tag = "ORIGX2".toList then lex_origx linenumber line 1
    else if tag = "ORIGX3".toList then lex_origx linenumber line 2
    else if tag = "MTRIX1".toList then lex_mtrix linenumber line 0
    else if tag = "MTRIX2".toList then lex_mtrix linenumber line 1
    else if tag = "MTRIX3".toList then lex_mtrix linenumber line 2
    else if tag = "MODEL ".toList then lex_model linenumber line
    else if tag = "MASTER".toList then lex_master linenumber line
    else if tag = "ENDMDL".toList then .ok .EndModel
    else if tag = "TER   ".toList then .ok .TER
    else if tag = "END   ".toList then .ok .End
    else .err (unrecognisedTag linenumber line)
  else if line.length > 2 then
    let tag := line.take 3
    if tag = "TER".toList then .ok .TER
    else if tag = "END".toList then .ok .End
    else .err (unrecognisedTag linenumber line)
  else if line ≠ [] then .err (unrecognisedTag linenumber line)
  else .ok .Empty

/-- Decimal digits of a number, as used by `format!` interpolation. -/
def natChars (n : Nat) : Chars := (toString n).toList

/-- Long description of the REMARK-count mismatch of the MASTER arm. -/
def remarkMismatchMsg (actual declared : Nat) : Chars :=
  "The number of REMARKS (".toList ++ natChars actual
    ++ ") is different then posed in the MASTER Record (".toList
    ++ natChars declared ++ ")".toList

/-- Long description of the non-zero always-empty checksum field. -/
def emptyMismatchMsg (declared : Nat) : Chars :=
  "The empty checksum number is not empty (value: ".toList ++ natChars declared
    ++ ") while it is defined to be empty.".toList

/-- Long description of the transform-count mismatch of the MASTER arm. -/
def xformMismatchMsg (actual declared : Nat) : Chars :=
  "The number of coordinate transformation records (".toList ++ natChars actual
    ++ ") is different then posed in the MASTER Record (".toList
    ++ natChars declared ++ ")".toList

/-- Long description of the atom-count mismatch of the MASTER arm, carrying
the recomputed total first and the declared value second, exactly as the
`format!` call does. -/
def coordMismatchMsg (actual declared : Nat) : Chars :=
  "The number of Atoms (Normal + Hetero) (".toList ++ natChars actual
    ++ ") is different then posed in the MASTER Record (".toList
    ++ natChars declared ++ ")".toList

/-- A "MASTER checksum failed" diagnostic at file scope. -/
def masterError (filename : String) (lvl : ErrorLevel) (long : Chars) : PDBError :=
  { level := lvl
    short_description := "MASTER checksum failed"
    long_description := long
    context := .show_file filename }

/-- Validity test `pdb.has_origx() && pdb.origx().valid()`. -/
def PDB.origxValid (p : PDB) : Bool :=
  match p.origx with
  | some t => t.valid
  | none => false

/-- Validity test `pdb.has_scale() && pdb.scale().valid()`. -/
def PDB.scaleValid (p : PDB) : Bool :=
  match p.scale with
  | some t => t.valid
  | none => false

/-- The mutable state threaded through the line loop of `parse`: the PDB
being built, the current-model accumulator and the diagnostics collected so
far. -/
structure PState where
  pdb : PDB
  current_model : Model
  errors : List PDBError
  deriving DecidableEq

/-- Update the first MTRIX entry with the given serial number (set the row
and the contained flag), mirroring the scan of parser.rs lines 149-165;
`none` when no entry matches. -/
def updMtrixList (n ser : Nat) (row : List ℚ) (given : Bool) : List MtriX → Option (List MtriX)
  | [] => none
  | mx :: rest =>
    if mx.serial_number = ser then
      some ({ mx.set_row n row with contained := given } :: rest)
    else
      (updMtrixList n ser row given rest).map (fun rest2 => mx :: rest2)

/-- One step of the structure builder: fold a decoded record into the parser
state (the match of parser.rs lines 79-248). The ANISOU arm prints to stdout
when no atom matches, which is not a diagnostic and is modelled as a no-op. -/
def processItem (filename : String) (st : PState) : LexItem → Res PState
  | .Remark num text => .ok { st with pdb := st.pdb.add_remark num text }
  | .Atom hetero serial_number name _ residue_name chain_id residue_serial_number
      _ x y z occ b _ element charge =>
    match Atom.new serial_number name x y z occ b element charge with
    | none => .panic
    | some atom =>
      if hetero then
        match st.current_model.add_hetero_atom atom chain_id residue_serial_number residue_name with
        | .ok m => .ok { st with current_model := m }
        | .err e => .err e
        | .panic => .panic
      else
        match st.current_model.add_atom atom chain_id residue_serial_number residue_name with
        | .ok m => .ok { st with current_model := m }
        | .err e => .err e
        | .panic => .panic
  | .Anisou s _ _ _ _ _ _ factors _ _ _ =>
    .ok { st with current_model := (st.current_model.setAnisouRev s factors).1 }
  | .Model number =>
    .ok { st with
          pdb := if st.current_model.atom_count > 0 then st.pdb.add_model st.current_model
                 else st.pdb
          current_model := Model.new number }
  | .Scale n row =>
    let p := if st.pdb.has_scale then st.pdb else { st.pdb with scale := some TMatrix.new }
    .ok { st with pdb := { p with scale := p.scale.map (fun t => t.set_row n row) } }
  | .OrigX n row =>
    let p := if st.pdb.has_origx then st.pdb else { st.pdb with origx := some TMatrix.new }
    .ok { st with pdb := { p with origx := p.origx.map (fun t => t.set_row n row) } }
  | .MtriX n ser row given =>
    let ml := match updMtrixList n ser row given st.pdb.mtrix with
      | some l => l
      | none => st.pdb.mtrix ++ [{ MtriX.new.set_row n row with serial_number := ser, contained := given }]
    .ok { st with pdb := { st.pdb with mtrix := ml } }
  | .Crystal a b c alpha beta gamma spacegroup _ =>
    match Symmetry.new spacegroup with
    | none => .panic
    | some sym =>
      .ok { st with pdb := { st.pdb with
            unit_cell := some { a, b, c, alpha, beta, gamma }
            symmetry := some sym } }
  | .Master num_remark num_empty _ _ _ _ _ num_xform num_coord _ _ _ =>
    let pc := if st.current_model.total_atom_count > 0
      then (st.pdb.add_model st.current_model, Model.new 0)
      else (st.pdb, st.current_model)
    let pdb1 := pc.1
    let e1 := if num_remark ≠ pdb1.remark_count then
        [masterError filename .StrictWarning (remarkMismatchMsg pdb1.remark_count num_remark)]
      else []
    let e2 := if num_empty ≠ 0 then
        [masterError filename .LooseWarning (emptyMismatchMsg num_empty)]
      else []
    let xform := (if pdb1.origxValid then 3 else 0) + (if pdb1.scaleValid then 3 else 0)
      + 3 * (pdb1.mtrix.filter MtriX.valid).length
    let e3 := if num_xform ≠ xform then
        [masterError filename .StrictWarning (xformMismatchMsg xform num_xform)]
      else []
    let e4 := if num_coord ≠ pdb1.total_atom_count then
        [masterError filename .StrictWarning (coordMismatchMsg pdb1.total_atom_count num_coord)]
      else []
    .ok { pdb := pdb1, current_model := pc.2, errors := st.errors ++ e1 ++ e2 ++ e3 ++ e4 }
  | .EndModel => .ok st
  | .TER => .ok st
  | .End => .ok st
  | .Empty => .ok st

/-- The line loop of `parse` (parser.rs lines 26-252): lex each line in turn,
fold a decoded record into the state, and push a lexing failure — whatever
its severity, breaking errors included — onto the accumulated diagnostics
before continuing with the next line. -/
def runLines (filename : String) : Nat → List Chars → PState → Res PState
  | _, [], st => .ok st
  | linenumber, l :: rest, st =>
    match lexLine linenumber l with
    | .ok item =>
      match processItem filename st item with
      | .ok st2 => runLines filename (linenumber + 1) rest st2
      | .err e => .err e
      | .panic => .panic
    | .err e => runLines filename (linenumber + 1) rest { st with errors := st.errors ++ [e] }
    | .panic => .panic

/-- The whole of `parse` (parser.rs lines 13-259) on an already-read list of
lines. Opening the file and reading a line are I/O and are not modelled;
every other behaviour is: the line loop, the final push of a non-empty
current model, the `validate` post-pass and the `Ok((pdb, errors))` result. -/
def parse (filename : String) (lines : List Chars) : Res (PDB × List PDBError) :=
  match runLines filename 1 lines { pdb := PDB.new, current_model := Model.new 0, errors := [] } with
  | .ok st =>
    let pdb := if st.current_model.total_atom_count > 0 then st.pdb.add_model st.current_model
      else st.pdb
    .ok (pdb, st.errors ++ validate pdb)
  | .err e => .err e
  | .panic => .panic

/-- An ATOM line truncated to 40 characters, ending inside the x coordinate
column block. -/
def lineAtomShort : Chars := "ATOM      9  CA  MET A   1       1.000  ".toList

/-- A well-formed minimal ATOM line of exactly 54 characters: serial 9,
chain A, residue MET 1, coordinates 1, 2, 3. -/
def lineAtomValid : Chars := "ATOM      9  CA  MET A   1       1.000   2.000   3.000".toList

/-- A well-formed ATOM line for serial 5 in chain B. -/
def lineAtomStd5 : Chars := "ATOM      5  CA  MET B   1       1.000   2.000   3.000".toList

/-- An ATOM line of exactly 79 characters whose final character, column 78,
is a blank: the charge guard then reads column 79, which does not exist. -/
def lineAtom79 : Chars := "ATOM      9  CA  MET A   1       1.000   2.000   3.000  1.00  0.00           C ".toList

/-- A well-formed HETATM line for serial 5 in chain A. -/
def lineHetatm5 : Chars := "HETATM    5  CA  MET A   1       1.000   2.000   3.000".toList

/-- An ANISOU line truncated to 40 characters. -/
def lineAnisouShort : Chars := "ANISOU    5  CA  MET A   1        1     ".toList

/-- A well-formed ANISOU line padded to exactly 80 characters, the nominal
record width of the format. -/
def lineAnisou80 : Chars := "ANISOU    5  CA  MET A   1        1      2      3      4      5      6       C  ".toList

/-- A well-formed ANISOU line of 78 characters for serial 5, with tensor
integers 1 to 6. -/
def lineAnisou78 : Chars := "ANISOU    5  CA  MET A   1        1      2      3      4      5      6       C".toList

/-- A MODEL line with serial number 1. -/
def lineModel1 : Chars := "MODEL     1".toList

/-- A MODEL line with serial number 3. -/
def lineModel3 : Chars := "MODEL     3".toList

/-- A MASTER line declaring 7 coordinate records and 0 for every other
field. -/
def lineMasterCoord7 : Chars := "MASTER        0    0    0    0    0    0    0    0    7    0    0    0".toList

/-- A MASTER line declaring 1 coordinate record and 0 for every other
field. -/
def lineMasterCoord1 : Chars := "MASTER        0    0    0    0    0    0    0    0    1    0    0    0".toList

/-- The atom decoded from `lineAtomValid`: the optional trailing fields get
their documented defaults. -/
def atomA9 : Atom :=
  { serial_number := 9, name := " CA ".toList, x := 1, y := 2, z := 3,
    occupancy := 1, b_factor := 0, element := [' ', ' '], charge := 0 }

/-- The atom decoded from `lineAtomStd5` and from `lineHetatm5`. -/
def atom5 : Atom :=
  { serial_number := 5, name := " CA ".toList, x := 1, y := 2, z := 3,
    occupancy := 1, b_factor := 0, element := [' ', ' '], charge := 0 }

/-- The PDB after the model push at the top of the MASTER arm. -/
def masterPushPdb (st : PState) : PDB :=
  if st.current_model.total_atom_count > 0 then st.pdb.add_model st.current_model else st.pdb

/-- The current model after the model push at the top of the MASTER arm. -/
def masterPushCur (st : PState) : Model :=
  if st.current_model.total_atom_count > 0 then Model.new 0 else st.current_model

/-- The transform tally recomputed by the MASTER arm: 3 for a fully
specified origin matrix, 3 for a fully specified scale matrix and 3 per
valid non-crystallographic symmetry matrix. -/
def masterXform (p : PDB) : Nat :=
  (if p.origxValid then 3 else 0) + (if p.scaleValid then 3 else 0)
    + 3 * (p.mtrix.filter MtriX.valid).length

/-- The diagnostics appended by the MASTER arm, in push order: remark count,
always-empty field, transform tally, atom count. -/
def masterErrs (filename : String) (p : PDB) (nr ne nx nc : Nat) : List PDBError :=
  (if nr ≠ p.remark_count then
    [masterError filename .StrictWarning (remarkMismatchMsg p.remark_count nr)] else [])
  ++ (if ne ≠ 0 then [masterError filename .LooseWarning (emptyMismatchMsg ne)] else [])
  ++ (if nx ≠ masterXform p then
    [masterError filename .StrictWarning (xformMismatchMsg (masterXform p) nx)] else [])
  ++ (if nc ≠ p.total_atom_count then
    [masterError filename .StrictWarning (coordMismatchMsg p.total_atom_count nc)] else [])

/-- Probe: the first 19 characters of the atom-count mismatch message. -/
def coordMsgProbe : Chars := "The number of Atoms".toList

/-- Recognizer of the atom-count checksum diagnostic by the fixed head of
its long description. -/
def isCoordMismatch (e : PDBError) : Bool :=
  coordMsgProbe.isPrefixOf e.long_description

/-- Atoms of a residue list in iteration order. -/
def residuesAtoms (rs : List Residue) : List Atom := rs.flatMap Residue.atoms

/-- Atoms of a chain list in iteration order. -/
def chainsAtoms (cs : List Chain) : List Atom := cs.flatMap Chain.atomsList

/-- The tensor decoded from `lineAnisou78`: integers 1 to 6, each divided by
10000. -/
def tensor123456 : List (List ℚ) :=
  [[mkRat 1 10000, mkRat 2 10000, mkRat 3 10000],
   [mkRat 4 10000, mkRat 5 10000, mkRat 6 10000]]

/-- The atom of `lineHetatm5` after its tensor has been set. -/
def atom5aniso : Atom :=
  { atom5 with anisotropic_temperature_factors := some tensor123456 }

/-- Append-if-new: one step of first-insertion order. -/
def insert1 {α : Type} [DecidableEq α] (acc : List α) (x : α) : List α :=
  if x ∈ acc then acc else acc ++ [x]

/-- First-insertion order of a sequence of keys: every key appears once, at
the position of its first occurrence. -/
def firstInsertionOrder {α : Type} [DecidableEq α] (xs : List α) : List α :=
  xs.foldl insert1 []

/-- Iteration order of the chain ids of a partition. -/
def chainIds (cs : List Chain) : List Char := cs.map Chain.id

/-- Atoms of the residue with the given serial number, empty when absent. -/
def resAtomsAt (rs : List Residue) (x : Nat) : List Atom :=
  match rs.find? (fun r => r.serial_number == x) with
  | some r => r.atoms
  | none => []

/-- Residue serial numbers, in iteration order, of the first chain with the
given id; empty when the partition has no such chain. -/
def resSerialsAt (cs : List Chain) (cid : Char) : List Nat :=
  match cs.find? (fun c => c.id == cid) with
  | some c => c.residues.map Residue.serial_number
  | none => []

/-- Atoms, in iteration order, of the residue keyed (chain id, serial
number); empty when absent. -/
def atomsAt (cs : List Chain) (cid : Char) (rsn : Nat) : List Atom :=
  match cs.find? (fun c => c.id == cid) with
  | some c => resAtomsAt c.residues rsn
  | none => []

/-- One atom-insertion request, as the builder issues them: partition flag,
atom, chain id and residue key. -/
structure Req where
  hetero : Bool
  atom : Atom
  chain_id : Char
  residue_serial_number : Nat
  residue_name : Chars
  deriving DecidableEq

/-- Perform one request on a model. -/
def applyReq (m : Model) (r : Req) : Res Model :=
  if r.hetero then m.add_hetero_atom r.atom r.chain_id r.residue_serial_number r.residue_name
  else m.add_atom r.atom r.chain_id r.residue_serial_number r.residue_name

/-- Perform a sequence of requests left to right. -/
def applyReqs (m : Model) : List Req → Res Model
  | [] => .ok m
  | r :: rs =>
    match applyReq m r with
    | .ok m2 => applyReqs m2 rs
    | .err e => .err e
    | .panic => .panic

/-- The id sequence of one partition, folded over a request list. -/
def foldIds (het : Bool) (acc : List Char) (reqs : List Req) : List Char :=
  reqs.foldl (fun acc r => if r.hetero = het then insert1 acc r.chain_id else acc) acc

/-- The residue serial sequence of one chain, folded over a request list. -/
def foldSerials (het : Bool) (cid : Char) (acc : List Nat) (reqs : List Req) : List Nat :=
  reqs.foldl (fun acc r =>
    if r.hetero = het ∧ r.chain_id = cid then insert1 acc r.residue_serial_number
    else acc) acc

/-- The atom sequence of one residue, folded over a request list. -/
def foldAtoms (het : Bool) (cid : Char) (rsn : Nat) (acc : List Atom)
    (reqs : List Req) : List Atom :=
  reqs.foldl (fun acc r =>
    if r.hetero = het ∧ r.chain_id = cid ∧ r.residue_serial_number = rsn
    then acc ++ [r.atom] else acc) acc

/-- C1. The spec claims a fatal (breaking) diagnostic from a line decoder
aborts the whole parse and returns only that diagnostic. The code instead
pushes the breaking diagnostic onto the accumulated error list (parser.rs
lines 249-251) and keeps parsing: on a file whose first line is a truncated
ATOM line and whose second line is a valid one, `parse` returns `Ok` with a
structure containing the atom of line 2 together with the breaking "Atom
line too short" diagnostic of line 1, instead of `Err`. -/
theorem c1_breaking_diagnostic_accumulated_not_returned :
    parse "file.pdb" [lineAtomShort, lineAtomValid] =
      .ok ({ PDB.new with models :=
              [{ serial_number := 0
                 chains := [{ id := 'A', residues := [{ serial_number := 1, name := "MET".toList, atoms := [atomA9] }] }]
                 hetero_chains := [] }] },
           [{ level := .BreakingError
              short_description := "Atom line too short"
              long_description := "This line is too short to contain all necessary elements (up to `z` at least).".toList
              context := .full_line 1 lineAtomShort }]) := by
  decide

/-- C2. The spec claims every record decoder rejects a too-short line before
slicing any field, so decoding is total. The code performs out-of-range
character accesses instead: `lex_anisou` has no length check at all and
panics on a 40-character ANISOU line, it even panics on a nominal-width
80-character line through its `chars[80]` charge read, and the charge guard
of `lex_atom` reads column 79 of a 79-character line. -/
theorem c2_short_line_decoding_panics :
    lex_anisou 1 lineAnisouShort = .panic ∧
    lex_anisou 1 lineAnisou80 = .panic ∧
    lex_atom 1 lineAtom79 false = .panic := by
  refine ⟨by decide, by decide, by decide⟩

/-- C3. The spec claims the accumulator model is appended on a MODEL record
if and only if it holds at least one atom counting both partitions, so a
hetero-only accumulator is kept. The MODEL arm instead guards with
`atom_count`, which counts the standard partition only (model.rs lines
52-56): after MODEL, one HETATM and another MODEL, the accumulator holds one
(hetero) atom, yet the final structure has no models at all — the hetero
atom is silently discarded. -/
theorem c3_hetero_only_accumulator_discarded :
    runLines "file.pdb" 1 [lineModel1, lineHetatm5]
        { pdb := PDB.new, current_model := Model.new 0, errors := [] } =
      .ok { pdb := PDB.new
            current_model :=
              { serial_number := 1
                chains := []
                hetero_chains := [{ id := 'A', residues := [{ serial_number := 1, name := "MET".toList, atoms := [atom5] }] }] }
            errors := [] } ∧
    Model.total_atom_count
      { serial_number := 1
        chains := []
        hetero_chains := [{ id := 'A', residues := [{ serial_number := 1, name := "MET".toList, atoms := [atom5] }] }] } = 1 ∧
    parse "file.pdb" [lineModel1, lineHetatm5, lineModel3] = .ok (PDB.new, []) := by
  refine ⟨by decide, by decide, by decide⟩

/-- A character read at a present index succeeds with that character. -/
theorem getc_some {cs : Chars} {i : Nat} {c : Char} (h : cs[i]? = some c) :
    getc cs i = .ok c := by
  unfold getc
  rw [h]

/-- C9. Dispatch requires strictly more than 6 characters before matching a
six-character tag, so a line of exactly 6 characters is never routed to a
record decoder: it is matched on its first three characters, yielding TER or
End when those match and otherwise the general-warning "Could not recognise
tag." diagnostic — in particular the line consisting of exactly the tag
"ATOM  " produces that general warning, not the breaking "Atom line too
short" error of the atom decoder. -/
theorem c9_six_char_line_never_routed_to_decoder (linenumber : Nat) (line : Chars)
    (h : line.length = 6) :
    lexLine linenumber line =
      (if line.take 3 = "TER".toList then .ok .TER
       else if line.take 3 = "END".toList then .ok .End
       else .err (unrecognisedTag linenumber line)) ∧
    lexLine 1 "ATOM  ".toList = .err (unrecognisedTag 1 "ATOM  ".toList) ∧
    (unrecognisedTag 1 "ATOM  ".toList).level = .GeneralWarning := by
  refine ⟨?_, by decide, by decide⟩
  simp [lexLine, h]

/-- Witness: the theorem applied to the concrete six-character line
"ATOM  ". -/
theorem c9_witness :
    lexLine 2 "ATOM  ".toList =
      (if ("ATOM  ".toList).take 3 = "TER".toList then .ok .TER
       else if ("ATOM  ".toList).take 3 = "END".toList then .ok .End
       else .err (unrecognisedTag 2 "ATOM  ".toList)) :=
  (c9_six_char_line_never_routed_to_decoder 2 "ATOM  ".toList (by decide)).1

/-- C6. Formal-charge decoding on a line holding both charge columns
(0-based 78 and 79): two blanks give charge 0 without error; a non-digit at
column 78 gives a breaking diagnostic scoped to column 78 — not the sign
column — whatever character sits at 79; a digit with a sign other than plus
or minus gives a breaking diagnostic scoped to column 79; a digit with a
plus or minus decodes to the digit value with that sign. -/
theorem c6_formal_charge_decoding (linenumber : Nat) (l : Chars)
    (c78 c79 : Char) (h78 : l[78]? = some c78) (h79 : l[79]? = some c79) :
    (c78 = ' ' → c79 = ' ' → lexAtomCharge linenumber l = .ok 0) ∧
    (¬(c78 = ' ' ∧ c79 = ' ') → ¬c78.isDigit →
      lexAtomCharge linenumber l = .err (chargeNotNumeric linenumber l)) ∧
    (chargeNotNumeric linenumber l).context = Context.line linenumber l 78 1 ∧
    (chargeNotNumeric linenumber l).level = .BreakingError ∧
    (c78.isDigit → c79 ≠ '-' → c79 ≠ '+' →
      lexAtomCharge linenumber l = .err (chargeNotSigned linenumber l)) ∧
    (chargeNotSigned linenumber l).context = Context.line linenumber l 79 1 ∧
    (chargeNotSigned linenumber l).level = .BreakingError ∧
    (c78.isDigit → c79 = '+' →
      lexAtomCharge linenumber l = .ok (((c78.toNat - '0'.toNat : Nat) : Int))) ∧
    (c78.isDigit → c79 = '-' →
      lexAtomCharge linenumber l = .ok (-((c78.toNat - '0'.toNat : Nat) : Int))) := by
  have hlen : 79 ≤ l.length := by
    obtain ⟨hlt, -⟩ := List.getElem?_eq_some_iff.mp h79
    omega
  refine ⟨?_, ?_, rfl, rfl, ?_, rfl, rfl, ?_, ?_⟩
  · intro hb78 hb79
    simp [lexAtomCharge, getc_some h78, getc_some h79, hlen, hb78, hb79]
  · intro hnb hnd
    by_cases hsp : c78 = ' '
    · have hc : c79 ≠ ' ' := fun hc => hnb ⟨hsp, hc⟩
      simp [lexAtomCharge, lexAtomChargeTail, getc_some h78, getc_some h79, hlen, hsp, hc, hnd]
    · simp [lexAtomCharge, lexAtomChargeTail, getc_some h78, getc_some h79, hlen, hsp, hnd]
  · intro hd hm hp
    have hsp : c78 ≠ ' ' := by
      intro e
      rw [e] at hd
      simp at hd
    simp [lexAtomCharge, lexAtomChargeTail, getc_some h78, getc_some h79, hlen, hsp, hd, hm, hp]
  · intro hd hp
    have hsp : c78 ≠ ' ' := by
      intro e
      rw [e] at hd
      simp at hd
    simp [lexAtomCharge, lexAtomChargeTail, getc_some h78, getc_some h79, hlen, hsp, hd, hp]
  · intro hd hm
    have hsp : c78 ≠ ' ' := by
      intro e
      rw [e] at hd
      simp at hd
    simp [lexAtomCharge, lexAtomChargeTail, getc_some h78, getc_some h79, hlen, hsp, hd, hm]

/-- Witness: the charge theorem applied to a concrete 80-character line with
two blank charge columns decodes charge 0. -/
theorem c6_witness : lexAtomCharge 1 (lineAtom79 ++ [' ']) = .ok 0 :=
  ((c6_formal_charge_decoding 1 (lineAtom79 ++ [' ']) ' ' ' '
    (by decide) (by decide)).1) rfl rfl

/-- Characterization of the MASTER arm of the builder: push the current
model when it holds atoms, then append the four conditional checksum
diagnostics. -/
theorem processItem_master (filename : String) (st : PState)
    (nr ne a b c d g nx nc t u v : Nat) :
    processItem filename st (.Master nr ne a b c d g nx nc t u v) =
      .ok { pdb := masterPushPdb st
            current_model := masterPushCur st
            errors := st.errors ++ masterErrs filename (masterPushPdb st) nr ne nx nc } := by
  by_cases h : st.current_model.total_atom_count > 0 <;>
    simp [processItem, masterPushPdb, masterPushCur, masterErrs, masterXform, h,
      List.append_assoc]

/-- Being a prefix of an appended list only looks at the left part when that
part is at least as long as the probe. -/
theorem isPrefixOf_append_left {p : Chars} (l xs : Chars) (h : p.length ≤ l.length) :
    (p.isPrefixOf (l ++ xs)) = p.isPrefixOf l := by
  induction p generalizing l with
  | nil => simp [List.isPrefixOf]
  | cons a as ih =>
    cases l with
    | nil => simp at h
    | cons b bs =>
      show (a == b && as.isPrefixOf (bs ++ xs)) = (a == b && as.isPrefixOf bs)
      rw [ih bs (by simpa using h)]

/-- The remark-count message never looks like the atom-count message. -/
theorem isCoord_remarkMsg (f : String) (lvl : ErrorLevel) (x y : Nat) :
    isCoordMismatch (masterError f lvl (remarkMismatchMsg x y)) = false := by
  show coordMsgProbe.isPrefixOf (remarkMismatchMsg x y) = false
  unfold remarkMismatchMsg
  simp only [List.append_assoc]
  rw [isPrefixOf_append_left _ _ (by decide)]
  decide

/-- The always-empty-field message never looks like the atom-count message. -/
theorem isCoord_emptyMsg (f : String) (lvl : ErrorLevel) (x : Nat) :
    isCoordMismatch (masterError f lvl (emptyMismatchMsg x)) = false := by
  show coordMsgProbe.isPrefixOf (emptyMismatchMsg x) = false
  unfold emptyMismatchMsg
  simp only [List.append_assoc]
  rw [isPrefixOf_append_left _ _ (by decide)]
  decide

/-- The transform-tally message never looks like the atom-count message. -/
theorem isCoord_xformMsg (f : String) (lvl : ErrorLevel) (x y : Nat) :
    isCoordMismatch (masterError f lvl (xformMismatchMsg x y)) = false := by
  show coordMsgProbe.isPrefixOf (xformMismatchMsg x y) = false
  unfold xformMismatchMsg
  simp only [List.append_assoc]
  rw [isPrefixOf_append_left _ _ (by decide)]
  decide

/-- The atom-count message is recognised by its head. -/
theorem isCoord_coordMsg (f : String) (lvl : ErrorLevel) (x y : Nat) :
    isCoordMismatch (masterError f lvl (coordMismatchMsg x y)) = true := by
  show coordMsgProbe.isPrefixOf (coordMismatchMsg x y) = true
  unfold coordMismatchMsg
  simp only [List.append_assoc]
  rw [isPrefixOf_append_left _ _ (by decide)]
  decide

/-- Among the four MASTER diagnostics, exactly the atom-count mismatch one
is of the atom-count kind. -/
theorem filter_coord_masterErrs (filename : String) (p : PDB) (nr ne nx nc : Nat) :
    (masterErrs filename p nr ne nx nc).filter isCoordMismatch =
      (if nc ≠ p.total_atom_count then
        [masterError filename .StrictWarning (coordMismatchMsg p.total_atom_count nc)]
       else []) := by
  unfold masterErrs
  by_cases h1 : nr ≠ p.remark_count <;> by_cases h2 : ne ≠ 0 <;>
    by_cases h3 : nx ≠ masterXform p <;> by_cases h4 : nc ≠ p.total_atom_count <;>
    simp [h1, h2, h3, h4, List.filter_append, List.filter,
      isCoord_remarkMsg, isCoord_emptyMsg, isCoord_xformMsg, isCoord_coordMsg]

/-- C7. The MASTER arm appends exactly one strict-warning atom-count
diagnostic — carrying the recomputed total and the declared value in its
message — when the declared coordinate count differs from the total atom
count of the built structure (current model pushed first), and none when
they agree; end to end, a one-atom file with a MASTER record declaring 7
coordinates yields exactly that one diagnostic of the atom-count kind, and
the same file declaring 1 yields no diagnostic at all. -/
theorem c7_master_atom_count_checksum (filename : String) (st : PState)
    (nr ne a b c d g nx nc t u v : Nat) :
    processItem filename st (.Master nr ne a b c d g nx nc t u v) =
      .ok { pdb := masterPushPdb st
            current_model := masterPushCur st
            errors := st.errors ++ masterErrs filename (masterPushPdb st) nr ne nx nc } ∧
    (nc ≠ (masterPushPdb st).total_atom_count →
      (masterErrs filename (masterPushPdb st) nr ne nx nc).filter isCoordMismatch =
        [masterError filename .StrictWarning
          (coordMismatchMsg (masterPushPdb st).total_atom_count nc)]) ∧
    (nc = (masterPushPdb st).total_atom_count →
      (masterErrs filename (masterPushPdb st) nr ne nx nc).filter isCoordMismatch = []) ∧
    (masterError filename .StrictWarning
      (coordMismatchMsg (masterPushPdb st).total_atom_count nc)).level = .StrictWarning ∧
    parse "file.pdb" [lineAtomValid, lineMasterCoord7] =
      .ok ({ PDB.new with models := [⟨0, [⟨'A', [⟨1, "MET".toList, [atomA9]⟩]⟩], []⟩] },
           [masterError "file.pdb" .StrictWarning (coordMismatchMsg 1 7)]) ∧
    parse "file.pdb" [lineAtomValid, lineMasterCoord1] =
      .ok ({ PDB.new with models := [⟨0, [⟨'A', [⟨1, "MET".toList, [atomA9]⟩]⟩], []⟩] },
           []) := by
  refine ⟨processItem_master filename st nr ne a b c d g nx nc t u v, ?_, ?_, rfl,
    by decide, by decide⟩
  · intro h
    rw [filter_coord_masterErrs, if_pos h]
  · intro h
    rw [filter_coord_masterErrs, if_neg (not_not_intro h)]

/-- Witness: on an empty state and a declared count of 5 against a total of
0, the filtered MASTER diagnostics are exactly the one atom-count mismatch. -/
theorem c7_witness :
    (masterErrs "w.pdb"
        (masterPushPdb { pdb := PDB.new, current_model := Model.new 0, errors := [] })
        0 0 0 5).filter isCoordMismatch =
      [masterError "w.pdb" .StrictWarning
        (coordMismatchMsg
          (masterPushPdb { pdb := PDB.new, current_model := Model.new 0, errors := [] }).total_atom_count
          5)] :=
  (c7_master_atom_count_checksum "w.pdb" ⟨PDB.new, Model.new 0, []⟩
    0 0 0 0 0 0 0 0 5 0 0 0).2.1 (by decide)

/-- C10. After a MASTER record, a current model holding at least one atom is
appended to the structure and replaced by a fresh model with serial number
0, and parsing continues (an empty accumulator is kept as is); consequently,
in a stream MODEL 3, ATOM, MASTER, ATOM the atom after the MASTER record is
collected into an additional model with serial number 0 that is appended to
the structure at stream end. -/
theorem c10_master_pushes_model_and_resets_serial (filename : String) (st : PState)
    (nr ne a b c d g nx nc t u v : Nat) :
    (0 < st.current_model.total_atom_count →
      processItem filename st (.Master nr ne a b c d g nx nc t u v) =
        .ok { pdb := st.pdb.add_model st.current_model
              current_model := Model.new 0
              errors := st.errors
                ++ masterErrs filename (st.pdb.add_model st.current_model) nr ne nx nc }) ∧
    (st.current_model.total_atom_count = 0 →
      processItem filename st (.Master nr ne a b c d g nx nc t u v) =
        .ok { pdb := st.pdb
              current_model := st.current_model
              errors := st.errors ++ masterErrs filename st.pdb nr ne nx nc }) ∧
    parse "file.pdb" [lineModel3, lineAtomValid, lineMasterCoord1, lineAtomStd5] =
      .ok ({ PDB.new with models :=
              [⟨3, [⟨'A', [⟨1, "MET".toList, [atomA9]⟩]⟩], []⟩,
               ⟨0, [⟨'B', [⟨1, "MET".toList, [atom5]⟩]⟩], []⟩] }, []) := by
  refine ⟨?_, ?_, by decide⟩
  · intro h
    rw [processItem_master]
    simp [masterPushPdb, masterPushCur, h]
  · intro h
    rw [processItem_master]
    simp [masterPushPdb, masterPushCur, h]

/-- Witness: the MASTER step applied to a state whose accumulator (serial 7)
holds one atom pushes it and resets the accumulator to a fresh model 0. -/
theorem c10_witness :
    processItem "w.pdb"
        { pdb := PDB.new
          current_model := ⟨7, [⟨'A', [⟨1, "MET".toList, [atomA9]⟩]⟩], []⟩
          errors := [] }
        (.Master 0 0 0 0 0 0 0 0 1 0 0 0) =
      .ok { pdb := PDB.new.add_model ⟨7, [⟨'A', [⟨1, "MET".toList, [atomA9]⟩]⟩], []⟩
            current_model := Model.new 0
            errors := ([] : List PDBError)
              ++ masterErrs "w.pdb"
                (PDB.new.add_model ⟨7, [⟨'A', [⟨1, "MET".toList, [atomA9]⟩]⟩], []⟩)
                0 0 0 1 } :=
  (c10_master_pushes_model_and_resets_serial "w.pdb"
    ⟨PDB.new, ⟨7, [⟨'A', [⟨1, "MET".toList, [atomA9]⟩]⟩], []⟩, []⟩
    0 0 0 0 0 0 0 0 1 0 0 0).1 (by decide)

/-- The combined iteration order is the standard part then the hetero part. -/
theorem all_atoms_eq (m : Model) :
    m.all_atoms = chainsAtoms m.chains ++ chainsAtoms m.hetero_chains := rfl

/-- The reverse update on an appended list tries the right part first. -/
theorem updLastAtoms_append (s : Nat) (f : List (List ℚ)) (xs ys : List Atom) :
    updLastAtoms s f (xs ++ ys) =
      match updLastAtoms s f ys with
      | some ys2 => some (xs ++ ys2)
      | none => (updLastAtoms s f xs).map (fun xs2 => xs2 ++ ys) := by
  induction xs with
  | nil =>
    cases h : updLastAtoms s f ys with
    | some ys2 => simp [h]
    | none => simp [h, updLastAtoms]
  | cons a xs ih =>
    simp only [List.cons_append, updLastAtoms, List.append_eq]
    rw [ih]
    cases h : updLastAtoms s f ys with
    | some ys2 => simp
    | none =>
      cases h2 : updLastAtoms s f xs with
      | some xs2 => simp
      | none =>
        by_cases hs : a.serial_number = s <;> simp [hs]

/-- The residue-level reverse update flattens to the atom-level one. -/
theorem updLastResidues_flat (s : Nat) (f : List (List ℚ)) (rs : List Residue) :
    (updLastResidues s f rs).map residuesAtoms = updLastAtoms s f (residuesAtoms rs) := by
  induction rs with
  | nil => simp [updLastResidues, residuesAtoms, updLastAtoms]
  | cons r rest ih =>
    have hflat : residuesAtoms (r :: rest) = r.atoms ++ residuesAtoms rest := by
      simp [residuesAtoms]
    rw [hflat, updLastAtoms_append, ← ih]
    simp only [updLastResidues]
    cases h : updLastResidues s f rest with
    | some rest2 => simp [residuesAtoms]
    | none =>
      cases h2 : updLastAtoms s f r.atoms with
      | some as2 => simp [residuesAtoms]
      | none => simp

/-- The chain-level reverse update flattens to the atom-level one. -/
theorem updLastChains_flat (s : Nat) (f : List (List ℚ)) (cs : List Chain) :
    (updLastChains s f cs).map chainsAtoms = updLastAtoms s f (chainsAtoms cs) := by
  induction cs with
  | nil => simp [updLastChains, chainsAtoms, updLastAtoms]
  | cons c rest ih =>
    have hflat : chainsAtoms (c :: rest) = c.atomsList ++ chainsAtoms rest := by
      simp [chainsAtoms]
    rw [hflat, updLastAtoms_append, ← ih]
    simp only [updLastChains]
    cases h : updLastChains s f rest with
    | some rest2 => simp [chainsAtoms]
    | none =>
      have hres : (updLastResidues s f c.residues).map residuesAtoms
          = updLastAtoms s f c.atomsList := updLastResidues_flat s f c.residues
      rw [← hres]
      cases h2 : updLastResidues s f c.residues with
      | some rs2 => simp [chainsAtoms, Chain.atomsList, residuesAtoms]
      | none => simp

/-- The reverse update fails exactly when no atom has the serial number. -/
theorem updLastAtoms_none_iff (s : Nat) (f : List (List ℚ)) (l : List Atom) :
    updLastAtoms s f l = none ↔ ∀ a ∈ l, a.serial_number ≠ s := by
  induction l with
  | nil => simp [updLastAtoms]
  | cons a rest ih =>
    simp only [updLastAtoms]
    cases h : updLastAtoms s f rest with
    | some r2 =>
      exact iff_of_false (by simp) (fun hall => by
        have hn : updLastAtoms s f rest = none :=
          ih.mpr (fun b hb => hall b (List.mem_cons_of_mem a hb))
        rw [h] at hn
        exact Option.noConfusion hn)
    | none =>
      by_cases hs : a.serial_number = s
      · exact iff_of_false (by simp [hs])
          (fun hall => hall a (List.mem_cons_self a rest) hs)
      · rw [if_neg hs]
        exact iff_of_true rfl (fun b hb => by
          rcases List.mem_cons.mp hb with rfl | hb2
          · exact hs
          · exact (ih.mp h) b hb2)

/-- A successful reverse update changes exactly one atom: the one at the last
index carrying the serial number, which gets its tensor set, while every
other entry of the list is kept. -/
theorem updLastAtoms_some_spec (s : Nat) (f : List (List ℚ)) :
    ∀ (l l2 : List Atom), updLastAtoms s f l = some l2 →
      ∃ i, ∃ hi : i < l.length,
        (l.get ⟨i, hi⟩).serial_number = s ∧
        l2 = l.set i ((l.get ⟨i, hi⟩).set_anisotropic_temperature_factors f) ∧
        ∀ j, ∀ hj : j < l.length, i < j → (l.get ⟨j, hj⟩).serial_number ≠ s := by
  intro l
  induction l with
  | nil => intro l2 h; simp [updLastAtoms] at h
  | cons a rest ih =>
    intro l2 h
    simp only [updLastAtoms] at h
    cases h2 : updLastAtoms s f rest with
    | some r2 =>
      rw [h2] at h
      obtain ⟨i, hi, hserial, hset, hafter⟩ := ih r2 h2
      have hl2 : l2 = a :: r2 := by
        cases h
        rfl
      refine ⟨i + 1, Nat.succ_lt_succ hi, by simpa using hserial, ?_, ?_⟩
      · rw [hl2, hset]
        rfl
      · intro j hj hij
        cases j with
        | zero => omega
        | succ j2 =>
          have hj2 : j2 < rest.length := by simpa using hj
          simpa using hafter j2 hj2 (by omega)
    | none =>
      rw [h2] at h
      by_cases hs : a.serial_number = s
      · rw [if_pos hs] at h
        have hl2 : l2 = a.set_anisotropic_temperature_factors f :: rest := by
          cases h
          rfl
        refine ⟨0, by simp, by simpa using hs, by simpa using hl2, ?_⟩
        intro j hj h0j
        cases j with
        | zero => omega
        | succ j2 =>
          have hj2 : j2 < rest.length := by simpa using hj
          have hmem : rest.get ⟨j2, hj2⟩ ∈ rest := List.get_mem rest j2 hj2
          simpa using (updLastAtoms_none_iff s f rest).mp h2 _ hmem
      · rw [if_neg hs] at h
        exact absurd h (by simp)

/-- The ANISOU builder arm flattens to the reverse update of the combined
iteration order, and reports found exactly when an atom matched. -/
theorem setAnisouRev_flat (m : Model) (s : Nat) (f : List (List ℚ)) :
    (m.setAnisouRev s f).1.all_atoms = (updLastAtoms s f m.all_atoms).getD m.all_atoms ∧
    (m.setAnisouRev s f).2 = (updLastAtoms s f m.all_atoms).isSome := by
  have hh := updLastChains_flat s f m.hetero_chains
  have hstd := updLastChains_flat s f m.chains
  cases h1 : updLastChains s f m.hetero_chains with
  | some hcs =>
    have hend : updLastAtoms s f m.all_atoms
        = some (chainsAtoms m.chains ++ chainsAtoms hcs) := by
      show updLastAtoms s f (chainsAtoms m.chains ++ chainsAtoms m.hetero_chains) = _
      rw [updLastAtoms_append, ← hh, h1]
      rfl
    simp only [Model.setAnisouRev, h1, hend]
    exact ⟨rfl, rfl⟩
  | none =>
    have hhet_none : updLastAtoms s f (chainsAtoms m.hetero_chains) = none := by
      rw [← hh, h1]
      rfl
    cases h2 : updLastChains s f m.chains with
    | some cs2 =>
      have hend : updLastAtoms s f m.all_atoms
          = some (chainsAtoms cs2 ++ chainsAtoms m.hetero_chains) := by
        show updLastAtoms s f (chainsAtoms m.chains ++ chainsAtoms m.hetero_chains) = _
        rw [updLastAtoms_append, hhet_none, ← hstd, h2]
        rfl
      simp only [Model.setAnisouRev, h1, h2, hend]
      exact ⟨rfl, rfl⟩
    | none =>
      have hend : updLastAtoms s f m.all_atoms = none := by
        show updLastAtoms s f (chainsAtoms m.chains ++ chainsAtoms m.hetero_chains) = _
        rw [updLastAtoms_append, hhet_none, ← hstd, h2]
        rfl
      simp only [Model.setAnisouRev, h1, h2, hend]
      exact ⟨rfl, rfl⟩

/-- When no atom of the model carries the serial number, the ANISOU arm
leaves the model unchanged and reports not found. -/
theorem setAnisouRev_not_found (m : Model) (s : Nat) (f : List (List ℚ))
    (h : ∀ a ∈ m.all_atoms, a.serial_number ≠ s) :
    m.setAnisouRev s f = (m, false) := by
  have hflat : updLastAtoms s f m.all_atoms = none := (updLastAtoms_none_iff s f _).mpr h
  have hh := updLastChains_flat s f m.hetero_chains
  have hstd := updLastChains_flat s f m.chains
  cases h1 : updLastChains s f m.hetero_chains with
  | some hcs =>
    exfalso
    have hsome : updLastAtoms s f m.all_atoms
        = some (chainsAtoms m.chains ++ chainsAtoms hcs) := by
      show updLastAtoms s f (chainsAtoms m.chains ++ chainsAtoms m.hetero_chains) = _
      rw [updLastAtoms_append, ← hh, h1]
      rfl
    rw [hflat] at hsome
    exact Option.noConfusion hsome
  | none =>
    have hhet_none : updLastAtoms s f (chainsAtoms m.hetero_chains) = none := by
      rw [← hh, h1]
      rfl
    cases h2 : updLastChains s f m.chains with
    | some cs2 =>
      exfalso
      have hsome : updLastAtoms s f m.all_atoms
          = some (chainsAtoms cs2 ++ chainsAtoms m.hetero_chains) := by
        show updLastAtoms s f (chainsAtoms m.chains ++ chainsAtoms m.hetero_chains) = _
        rw [updLastAtoms_append, hhet_none, ← hstd, h2]
        rfl
      rw [hflat] at hsome
      exact Option.noConfusion hsome
    | none =>
      unfold Model.setAnisouRev
      rw [h1, h2]

/-- C8 counterexample. The claim says an ANISOU record sets the tensor of
the most recently inserted atom with the matching serial number. On the
stream HETATM serial 5 (inserted first, hetero partition), ATOM serial 5
(inserted second, standard partition), ANISOU serial 5, the reverse scan
walks the standard-then-hetero iteration order backwards, so it reaches the
hetero atom first: the final structure carries the tensor on the atom of
line 1 while the most recently inserted matching atom — the standard atom of
line 2 — keeps no tensor. -/
theorem c8_counterexample_reverse_iteration_not_insertion :
    parse "file.pdb" [lineHetatm5, lineAtomStd5, lineAnisou78] =
      .ok ({ PDB.new with models :=
              [{ serial_number := 0
                 chains := [⟨'B', [⟨1, "MET".toList, [atom5]⟩]⟩]
                 hetero_chains := [⟨'A', [⟨1, "MET".toList, [atom5aniso]⟩]⟩] }] },
           []) ∧
    atom5.anisotropic_temperature_factors = none := by
  refine ⟨by decide, rfl⟩

/-- C8 as amended. Processing an ANISOU record with serial number s changes
only the current model and never adds a diagnostic; the updated model is the
reverse scan of the combined iteration order (standard chains then hetero
chains, flattened) setting the tensor of the first match — that is, of the
last atom with serial number s in iteration order, which need not be the
most recently inserted one; every other atom is left unchanged, and when no
atom matches the model is returned unchanged. -/
theorem c8_amended_last_in_iteration_order (filename : String) (st : PState)
    (s : Nat) (n : Chars) (al : Char) (rn : Chars) (cid : Char) (rsn : Nat)
    (ins : Char) (factors : List (List ℚ)) (seg el ch : Chars)
    (m : Model) (l2 : List Atom) :
    processItem filename st (.Anisou s n al rn cid rsn ins factors seg el ch) =
      .ok { st with current_model := (st.current_model.setAnisouRev s factors).1 } ∧
    (m.setAnisouRev s factors).1.all_atoms
      = (updLastAtoms s factors m.all_atoms).getD m.all_atoms ∧
    (m.setAnisouRev s factors).2 = (updLastAtoms s factors m.all_atoms).isSome ∧
    ((∀ a ∈ m.all_atoms, a.serial_number ≠ s) → m.setAnisouRev s factors = (m, false)) ∧
    (updLastAtoms s factors m.all_atoms = some l2 →
      ∃ i, ∃ hi : i < m.all_atoms.length,
        (m.all_atoms.get ⟨i, hi⟩).serial_number = s ∧
        l2 = m.all_atoms.set i
          ((m.all_atoms.get ⟨i, hi⟩).set_anisotropic_temperature_factors factors) ∧
        ∀ j, ∀ hj : j < m.all_atoms.length, i < j →
          (m.all_atoms.get ⟨j, hj⟩).serial_number ≠ s) ∧
    (updLastAtoms s factors m.all_atoms = none ↔ ∀ a ∈ m.all_atoms, a.serial_number ≠ s) :=
  ⟨rfl, (setAnisouRev_flat m s factors).1, (setAnisouRev_flat m s factors).2,
    setAnisouRev_not_found m s factors,
    updLastAtoms_some_spec s factors m.all_atoms l2,
    updLastAtoms_none_iff s factors m.all_atoms⟩

/-- Witness: the amended theorem applied to a one-atom model and a serial
number that matches nothing leaves the model unchanged. -/
theorem c8_witness :
    Model.setAnisouRev ⟨0, [⟨'A', [⟨1, "MET".toList, [atom5]⟩]⟩], []⟩ 99 [] =
      (⟨0, [⟨'A', [⟨1, "MET".toList, [atom5]⟩]⟩], []⟩, false) :=
  (c8_amended_last_in_iteration_order "w.pdb" ⟨PDB.new, Model.new 0, []⟩
    99 [] ' ' [] ' ' 0 ' ' [] [] [] []
    ⟨0, [⟨'A', [⟨1, "MET".toList, [atom5]⟩]⟩], []⟩ []).2.2.2.1 (by decide)

/-- A successful `Chain::new` yields the empty chain with that id. -/
theorem Chain.new_some {cid : Char} {nc : Chain} (h : Chain.new cid = some nc) :
    nc = ⟨cid, []⟩ := by
  unfold Chain.new at h
  by_cases hv : validTextChar cid
  · rw [if_pos hv] at h
    exact (Option.some.inj h).symm
  · rw [if_neg hv] at h
    exact Option.noConfusion h

/-- The chain scan fails when no chain has the id. -/
theorem addAtomToChains_none (a : Atom) (rsn : Nat) (rn : Chars) (cid : Char)
    {cs : List Chain} (h1 : ∀ c ∈ cs, c.id ≠ cid) :
    addAtomToChains a rsn rn cid cs = none := by
  induction cs with
  | nil => rfl
  | cons c rest ih =>
    have hc : c.id ≠ cid := h1 c (List.mem_cons_self c rest)
    simp only [addAtomToChains, if_neg hc]
    rw [ih (fun b hb => h1 b (List.mem_cons_of_mem c hb))]
    rfl

/-- The chain scan over a list whose only match is the appended last chain
updates exactly that chain. -/
theorem addAtomToChains_append_last (a : Atom) (rsn : Nat) (rn : Chars) (cid : Char)
    {cs : List Chain} (c1 : Chain) (h1 : ∀ c ∈ cs, c.id ≠ cid) (hc1 : c1.id = cid) :
    addAtomToChains a rsn rn cid (cs ++ [c1]) = some (cs ++ [c1.add_atom a rsn rn]) := by
  induction cs with
  | nil => simp [addAtomToChains, hc1]
  | cons c rest ih =>
    have hc : c.id ≠ cid := h1 c (List.mem_cons_self c rest)
    simp only [List.cons_append, addAtomToChains, if_neg hc, List.append_eq]
    rw [ih (fun b hb => h1 b (List.mem_cons_of_mem c hb))]
    rfl

/-- Nothing survives the id filter when no chain matches. -/
theorem filter_id_nil {cs : List Chain} (cid : Char)
    (h1 : ∀ c ∈ cs, c.id ≠ cid) :
    cs.filter (fun c => c.id == cid) = [] := by
  induction cs with
  | nil => rfl
  | cons c rest ih =>
    have hc : c.id ≠ cid := h1 c (List.mem_cons_self c rest)
    rw [List.filter_cons, if_neg (by simpa using hc)]
    exact ih (fun b hb => h1 b (List.mem_cons_of_mem c hb))

/-- Only the appended chain survives the id filter when nothing before it
matches. -/
theorem filter_id_append_last {cs : List Chain} (cid : Char) (c1 : Chain)
    (h1 : ∀ c ∈ cs, c.id ≠ cid) (hc1 : c1.id = cid) :
    (cs ++ [c1]).filter (fun c => c.id == cid) = [c1] := by
  rw [List.filter_append, filter_id_nil cid h1]
  simp [List.filter_cons, hc1]

/-- Two upserts with the same chain id into a partition that does not yet
hold that id: the first creates the chain and its residue, the second lands
in the same chain; with the same residue serial number it lands in the same
residue (keeping the first name), with a different one it appends a second
residue. -/
theorem partUpsert_two (cs : List Chain) (cid : Char) (nc : Chain)
    (hnew : Chain.new cid = some nc) (h1 : ∀ c ∈ cs, c.id ≠ cid)
    (a1 a2 : Atom) (rsn rsn2 : Nat) (rn1 rn2 : Chars) :
    partUpsert cs a1 cid rsn rn1 = .ok (cs ++ [⟨cid, [⟨rsn, rn1, [a1]⟩]⟩]) ∧
    partUpsert (cs ++ [⟨cid, [⟨rsn, rn1, [a1]⟩]⟩]) a2 cid rsn rn2
      = .ok (cs ++ [⟨cid, [⟨rsn, rn1, [a1, a2]⟩]⟩]) ∧
    (rsn2 ≠ rsn → partUpsert (cs ++ [⟨cid, [⟨rsn, rn1, [a1]⟩]⟩]) a2 cid rsn2 rn2
      = .ok (cs ++ [⟨cid, [⟨rsn, rn1, [a1]⟩, ⟨rsn2, rn2, [a2]⟩]⟩])) := by
  have hnc : nc = ⟨cid, []⟩ := Chain.new_some hnew
  subst hnc
  refine ⟨?_, ?_, ?_⟩
  · unfold partUpsert
    rw [hnew, addAtomToChains_none a1 rsn rn1 cid h1]
    rfl
  · unfold partUpsert
    rw [hnew, addAtomToChains_append_last a2 rsn rn2 cid ⟨cid, [⟨rsn, rn1, [a1]⟩]⟩ h1 rfl]
    simp [Chain.add_atom, addToResidues]
  · intro hne
    unfold partUpsert
    rw [hnew, addAtomToChains_append_last a2 rsn2 rn2 cid ⟨cid, [⟨rsn, rn1, [a1]⟩]⟩ h1 rfl]
    simp [Chain.add_atom, addToResidues, hne, Ne.symm]

/-- C5. Upsert is idempotent on keys: into a partition of a model that does
not yet hold the chain id, inserting two atoms with the same chain id and
the same residue serial number creates exactly one chain with that id whose
single residue carries the first name — the second name is not a matching
key and creates no second residue — and the two atoms in insertion order;
with different serial numbers the one chain holds two residues; the hetero
partition behaves the same. -/
theorem c5_upsert_idempotent_on_keys (m : Model) (cid : Char) (nc : Chain)
    (hnew : Chain.new cid = some nc)
    (hstd : ∀ c ∈ m.chains, c.id ≠ cid) (hhet : ∀ c ∈ m.hetero_chains, c.id ≠ cid)
    (a1 a2 : Atom) (rsn rsn2 : Nat) (rn1 rn2 : Chars) :
    (∃ m1 m2, m.add_atom a1 cid rsn rn1 = .ok m1 ∧
      m1.add_atom a2 cid rsn rn2 = .ok m2 ∧
      m2.chains.filter (fun c => c.id == cid) = [⟨cid, [⟨rsn, rn1, [a1, a2]⟩]⟩] ∧
      m2.hetero_chains = m.hetero_chains) ∧
    (rsn2 ≠ rsn → ∃ m1 m2, m.add_atom a1 cid rsn rn1 = .ok m1 ∧
      m1.add_atom a2 cid rsn2 rn2 = .ok m2 ∧
      m2.chains.filter (fun c => c.id == cid)
        = [⟨cid, [⟨rsn, rn1, [a1]⟩, ⟨rsn2, rn2, [a2]⟩]⟩]) ∧
    (∃ m1 m2, m.add_hetero_atom a1 cid rsn rn1 = .ok m1 ∧
      m1.add_hetero_atom a2 cid rsn rn2 = .ok m2 ∧
      m2.hetero_chains.filter (fun c => c.id == cid) = [⟨cid, [⟨rsn, rn1, [a1, a2]⟩]⟩] ∧
      m2.chains = m.chains) := by
  obtain ⟨p1, p2, p3⟩ := partUpsert_two m.chains cid nc hnew hstd a1 a2 rsn rsn2 rn1 rn2
  obtain ⟨q1, q2, q3⟩ := partUpsert_two m.hetero_chains cid nc hnew hhet a1 a2 rsn rsn2 rn1 rn2
  refine ⟨⟨{ m with chains := m.chains ++ [⟨cid, [⟨rsn, rn1, [a1]⟩]⟩] },
           { m with chains := m.chains ++ [⟨cid, [⟨rsn, rn1, [a1, a2]⟩]⟩] },
           ?_, ?_, ?_, rfl⟩, ?_, ?_⟩
  · simp only [Model.add_atom, p1]
  · simp only [Model.add_atom, p2]
  · exact filter_id_append_last cid _ hstd rfl
  · intro hne
    refine ⟨{ m with chains := m.chains ++ [⟨cid, [⟨rsn, rn1, [a1]⟩]⟩] },
            { m with chains := m.chains ++ [⟨cid, [⟨rsn, rn1, [a1]⟩, ⟨rsn2, rn2, [a2]⟩]⟩] },
            ?_, ?_, ?_⟩
    · simp only [Model.add_atom, p1]
    · simp only [Model.add_atom, p3 hne]
    · exact filter_id_append_last cid _ hstd rfl
  · refine ⟨{ m with hetero_chains := m.hetero_chains ++ [⟨cid, [⟨rsn, rn1, [a1]⟩]⟩] },
            { m with hetero_chains := m.hetero_chains ++ [⟨cid, [⟨rsn, rn1, [a1, a2]⟩]⟩] },
            ?_, ?_, ?_, rfl⟩
    · simp only [Model.add_hetero_atom, q1]
    · simp only [Model.add_hetero_atom, q2]
    · exact filter_id_append_last cid _ hhet rfl

/-- Witness: two same-key upserts into an empty model produce one chain A
with one residue 1 named by the first record and both atoms in order. -/
theorem c5_witness :
    ∃ m1 m2, (Model.new 0).add_atom atomA9 'A' 1 "MET".toList = .ok m1 ∧
      m1.add_atom atom5 'A' 1 "GLY".toList = .ok m2 ∧
      m2.chains.filter (fun c => c.id == 'A')
        = [⟨'A', [⟨1, "MET".toList, [atomA9, atom5]⟩]⟩] ∧
      m2.hetero_chains = (Model.new 0).hetero_chains :=
  (c5_upsert_idempotent_on_keys (Model.new 0) 'A' ⟨'A', []⟩ (by decide)
    (by simp [Model.new]) (by simp [Model.new])
    atomA9 atom5 1 2 "MET".toList "GLY".toList).1

/-- The residue upsert keeps the serial-number sequence in first-insertion
order: unchanged when the serial number is already present, appended
otherwise. -/
theorem addToResidues_serials (a : Atom) (rsn : Nat) (rn : Chars) (rs : List Residue) :
    (addToResidues a rsn rn rs).map Residue.serial_number
      = insert1 (rs.map Residue.serial_number) rsn := by
  induction rs with
  | nil => simp [addToResidues, insert1]
  | cons r rest ih =>
    by_cases h : r.serial_number = rsn
    · simp [addToResidues, if_pos h, insert1, h]
    · simp only [addToResidues, if_neg h, List.map_cons, ih, insert1]
      by_cases hm : rsn ∈ rest.map Residue.serial_number
      · simp [hm]
      · simp [hm, List.mem_cons, Ne.symm h]

/-- The residue upsert changes the atoms of exactly the keyed residue, by
appending the new atom; every other serial number sees the same atoms. -/
theorem addToResidues_atomsAt (a : Atom) (rsn : Nat) (rn : Chars) (rs : List Residue)
    (x : Nat) :
    resAtomsAt (addToResidues a rsn rn rs) x
      = if x = rsn then resAtomsAt rs x ++ [a] else resAtomsAt rs x := by
  induction rs with
  | nil =>
    by_cases hx : x = rsn
    · simp [addToResidues, resAtomsAt, List.find?_cons, hx]
    · simp [addToResidues, resAtomsAt, List.find?_cons, hx, Ne.symm hx]
  | cons r rest ih =>
    by_cases h : r.serial_number = rsn
    · by_cases hx : x = rsn
      · subst hx
        have hb : (r.serial_number == x) = true := by simp [h]
        simp [addToResidues, if_pos h, resAtomsAt, List.find?_cons, hb]
      · have hb : (r.serial_number == x) = false := by
          simp only [beq_eq_false_iff_ne, ne_eq]
          exact fun e => hx (by rw [← e, h])
        simp [addToResidues, if_pos h, resAtomsAt, List.find?_cons, hb, hx]
    · by_cases hrx : r.serial_number = x
      · have hx : x ≠ rsn := fun e => h (by rw [hrx, e])
        have hb : (r.serial_number == x) = true := by simp [hrx]
        simp [addToResidues, if_neg h, resAtomsAt, List.find?_cons, hb, hx]
      · have hb : (r.serial_number == x) = false := by simp [hrx]
        have hlh : resAtomsAt (r :: addToResidues a rsn rn rest) x
            = resAtomsAt (addToResidues a rsn rn rest) x := by
          simp [resAtomsAt, List.find?_cons, hb]
        have hrh : resAtomsAt (r :: rest) x = resAtomsAt rest x := by
          simp [resAtomsAt, List.find?_cons, hb]
        simp only [addToResidues, if_neg h]
        rw [hlh, hrh, ih]

/-- The chain scan fails exactly when no chain has the id. -/
theorem addAtomToChains_eq_none_iff (a : Atom) (rsn : Nat) (rn : Chars) (cid : Char)
    (cs : List Chain) :
    addAtomToChains a rsn rn cid cs = none ↔ ∀ c ∈ cs, c.id ≠ cid := by
  induction cs with
  | nil => simp [addAtomToChains]
  | cons c rest ih =>
    by_cases hc : c.id = cid
    · simp [addAtomToChains, if_pos hc, hc]
    · simp only [addAtomToChains, if_neg hc, Option.map_eq_none', ih]
      constructor
      · intro hall b hb
        rcases List.mem_cons.mp hb with rfl | hb2
        · exact hc
        · exact hall b hb2
      · intro hall b hb
        exact hall b (List.mem_cons_of_mem c hb)

/-- A successful chain scan keeps the id sequence unchanged. -/
theorem addAtomToChains_map_id (a : Atom) (rsn : Nat) (rn : Chars) (cid : Char) :
    ∀ (cs cs2 : List Chain), addAtomToChains a rsn rn cid cs = some cs2 →
      cs2.map Chain.id = cs.map Chain.id := by
  intro cs
  induction cs with
  | nil => intro cs2 h; exact absurd h (by simp [addAtomToChains])
  | cons c rest ih =>
    intro cs2 h
    by_cases hc : c.id = cid
    · rw [addAtomToChains, if_pos hc] at h
      cases h
      rfl
    · rw [addAtomToChains, if_neg hc] at h
      cases hr : addAtomToChains a rsn rn cid rest with
      | none => rw [hr] at h; exact absurd h (by simp)
      | some rest2 =>
        rw [hr] at h
        cases h
        simp [ih rest2 hr]

/-- A successful chain scan rewires the find-by-id observer: the scanned id
now answers with the upserted chain, every other id is untouched. -/
theorem addAtomToChains_find? (a : Atom) (rsn : Nat) (rn : Chars) (cid : Char) :
    ∀ (cs cs2 : List Chain), addAtomToChains a rsn rn cid cs = some cs2 →
      ∀ x, cs2.find? (fun c => c.id == x)
        = if x = cid then
            (cs.find? (fun c => c.id == cid)).map (fun c => c.add_atom a rsn rn)
          else cs.find? (fun c => c.id == x) := by
  intro cs
  induction cs with
  | nil => intro cs2 h; exact absurd h (by simp [addAtomToChains])
  | cons c rest ih =>
    intro cs2 h x
    by_cases hc : c.id = cid
    · rw [addAtomToChains, if_pos hc] at h
      cases h
      by_cases hx : x = cid
      · subst hx
        have hb : (c.id == x) = true := by simp [hc]
        have hb2 : ((c.add_atom a rsn rn).id == x) = true := by
          simpa [Chain.add_atom] using hb
        simp [List.find?_cons, hb, hb2, if_pos rfl]
      · have hb : (c.id == x) = false := by
          simp only [beq_eq_false_iff_ne, ne_eq]
          exact fun e => hx (by rw [← e, hc])
        have hb2 : ((c.add_atom a rsn rn).id == x) = false := by
          simpa [Chain.add_atom] using hb
        simp [List.find?_cons, hb, hb2, hx]
    · rw [addAtomToChains, if_neg hc] at h
      cases hr : addAtomToChains a rsn rn cid rest with
      | none => rw [hr] at h; exact absurd h (by simp)
      | some rest2 =>
        rw [hr] at h
        cases h
        by_cases hcx : c.id = x
        · have hx : x ≠ cid := fun e => hc (by rw [hcx, e])
          have hb : (c.id == x) = true := by simp [hcx]
          simp [List.find?_cons, hb, hx]
        · have hb : (c.id == x) = false := by simp [hcx]
          by_cases hx : x = cid
          · subst hx
            have hbc : (c.id == x) = false := hb
            simp [List.find?_cons, hb, hbc, if_pos rfl, ih rest2 hr x]
          · simp [List.find?_cons, hb, hx, ih rest2 hr x]

/-- The find-or-create upsert of one partition, observed through the three
iteration-order observers: the id sequence grows by append-if-new, the
residue serial sequence of the touched chain grows by append-if-new, the
atom sequence of the touched residue grows by appending the atom — and no
other chain or residue changes. -/
theorem partUpsert_observers {cs cs2 : List Chain} {a : Atom} {cid : Char}
    {rsn : Nat} {rn : Chars}
    (h : partUpsert cs a cid rsn rn = .ok cs2) :
    chainIds cs2 = insert1 (chainIds cs) cid ∧
    (∀ x, resSerialsAt cs2 x
      = if x = cid then insert1 (resSerialsAt cs cid) rsn else resSerialsAt cs x) ∧
    (∀ x y, atomsAt cs2 x y
      = if x = cid ∧ y = rsn then atomsAt cs cid rsn ++ [a] else atomsAt cs x y) := by
  unfold partUpsert at h
  cases hnew : Chain.new cid with
  | none =>
    rw [hnew] at h
    exact absurd h (by simp)
  | some nc =>
    rw [hnew] at h
    have hnc := Chain.new_some hnew
    subst hnc
    cases hscan : addAtomToChains a rsn rn cid cs with
    | some csu =>
      rw [hscan] at h
      simp only [Option.getD_some] at h
      cases h
      have hex : ∃ c ∈ cs, c.id = cid := by
        by_contra hno
        push_neg at hno
        rw [(addAtomToChains_eq_none_iff a rsn rn cid cs).mpr hno] at hscan
        exact Option.noConfusion hscan
      have hfs : ∃ c, cs.find? (fun c => c.id == cid) = some c := by
        have hs : (cs.find? (fun c => c.id == cid)).isSome := by
          rw [List.find?_isSome]
          obtain ⟨c, hm, hi⟩ := hex
          exact ⟨c, hm, by simp [hi]⟩
        exact Option.isSome_iff_exists.mp hs
      obtain ⟨c0, hc0⟩ := hfs
      have hfind := addAtomToChains_find? a rsn rn cid cs cs2 hscan
      refine ⟨?_, ?_, ?_⟩
      · have hmem : cid ∈ List.map Chain.id cs := by
          obtain ⟨c, hm, hi⟩ := hex
          exact hi ▸ List.mem_map_of_mem Chain.id hm
        rw [chainIds, chainIds, addAtomToChains_map_id a rsn rn cid cs cs2 hscan]
        simp [insert1, hmem]
      · intro x
        by_cases hx : x = cid
        · subst hx
          rw [resSerialsAt, hfind x, if_pos rfl, hc0, if_pos rfl, resSerialsAt, hc0]
          simp [Chain.add_atom, addToResidues_serials]
        · rw [resSerialsAt, hfind x, if_neg hx, if_neg hx, resSerialsAt]
      · intro x y
        by_cases hx : x = cid
        · subst hx
          by_cases hy : y = rsn
          · subst hy
            rw [atomsAt, hfind x, if_pos rfl, hc0, if_pos ⟨rfl, rfl⟩, atomsAt, hc0]
            simp [Chain.add_atom, addToResidues_atomsAt]
          · rw [atomsAt, hfind x, if_pos rfl, hc0,
              if_neg (fun hh => hy hh.2), atomsAt, hc0]
            simp [Chain.add_atom, addToResidues_atomsAt, hy]
        · rw [atomsAt, hfind x, if_neg hx, if_neg (fun hh => hx hh.1), atomsAt]
    | none =>
      rw [hscan] at h
      simp only [Option.getD_none] at h
      cases h
      have hall : ∀ c ∈ cs, c.id ≠ cid :=
        (addAtomToChains_eq_none_iff a rsn rn cid cs).mp hscan
      have hfindnil : cs.find? (fun c => c.id == cid) = none := by
        rw [List.find?_eq_none]
        intro c hm
        simp [hall c hm]
      refine ⟨?_, ?_, ?_⟩
      · have hnmem : cid ∉ chainIds cs := by
          intro hm
          obtain ⟨c, hcm, hce⟩ := List.mem_map.mp hm
          exact hall c hcm hce
        rw [chainIds, List.map_append, insert1, if_neg hnmem]
        rfl
      · intro x
        by_cases hx : x = cid
        · subst hx
          rw [resSerialsAt, List.find?_append, hfindnil, if_pos rfl, resSerialsAt, hfindnil]
          simp [List.find?_cons, Chain.add_atom, addToResidues, insert1]
        · have hfind1 :
            ([Chain.add_atom ⟨cid, []⟩ a rsn rn].find? (fun c => c.id == x)) = none := by
            have hb : ((Chain.add_atom ⟨cid, []⟩ a rsn rn).id == x) = false := by
              simp only [Chain.add_atom]
              simp only [beq_eq_false_iff_ne, ne_eq]
              exact fun e => hx e.symm
            simp [List.find?_cons, hb]
          rw [resSerialsAt, List.find?_append, hfind1, Option.or_none,
            if_neg hx, resSerialsAt]
      · intro x y
        by_cases hx : x = cid
        · subst hx
          rw [atomsAt, List.find?_append, hfindnil, atomsAt, hfindnil]
          by_cases hy : y = rsn
          · subst hy
            rw [if_pos ⟨rfl, rfl⟩]
            simp [List.find?_cons, Chain.add_atom, addToResidues, resAtomsAt]
          · rw [if_neg (fun hh => hy hh.2)]
            have hb : (rsn == y) = false := by
              simp only [beq_eq_false_iff_ne, ne_eq]
              exact fun e => hy e.symm
            simp [List.find?_cons, Chain.add_atom, addToResidues, resAtomsAt, hy,
              atomsAt, hfindnil, hb]
        · have hfind1 :
            ([Chain.add_atom ⟨cid, []⟩ a rsn rn].find? (fun c => c.id == x)) = none := by
            have hb : ((Chain.add_atom ⟨cid, []⟩ a rsn rn).id == x) = false := by
              simp only [Chain.add_atom]
              simp only [beq_eq_false_iff_ne, ne_eq]
              exact fun e => hx e.symm
            simp [List.find?_cons, hb]
          rw [atomsAt, List.find?_append, hfind1, Option.or_none,
            if_neg (fun hh => hx hh.1), atomsAt]

/-- A successful standard-partition insertion is a successful upsert of the
standard chain list, leaving the hetero partition untouched. -/
theorem add_atom_step {m m1 : Model} {a : Atom} {cid : Char} {rsn : Nat} {rn : Chars}
    (h : m.add_atom a cid rsn rn = .ok m1) :
    partUpsert m.chains a cid rsn rn = .ok m1.chains ∧
    m1.hetero_chains = m.hetero_chains := by
  unfold Model.add_atom at h
  cases hp : partUpsert m.chains a cid rsn rn with
  | ok cs =>
    rw [hp] at h
    cases h
    exact ⟨rfl, rfl⟩
  | err e =>
    rw [hp] at h
    exact absurd h (by simp)
  | panic =>
    rw [hp] at h
    exact absurd h (by simp)

/-- A successful hetero-partition insertion is a successful upsert of the
hetero chain list, leaving the standard partition untouched. -/
theorem add_hetero_atom_step {m m1 : Model} {a : Atom} {cid : Char} {rsn : Nat}
    {rn : Chars} (h : m.add_hetero_atom a cid rsn rn = .ok m1) :
    partUpsert m.hetero_chains a cid rsn rn = .ok m1.hetero_chains ∧
    m1.chains = m.chains := by
  unfold Model.add_hetero_atom at h
  cases hp : partUpsert m.hetero_chains a cid rsn rn with
  | ok cs =>
    rw [hp] at h
    cases h
    exact ⟨rfl, rfl⟩
  | err e =>
    rw [hp] at h
    exact absurd h (by simp)
  | panic =>
    rw [hp] at h
    exact absurd h (by simp)

/-- Observer recurrence for a whole request sequence: every observer of the
final model is its fold over the requests, started from the observer of the
initial model. -/
theorem applyReqs_observers : ∀ (reqs : List Req) (m m2 : Model),
    applyReqs m reqs = .ok m2 →
    chainIds m2.chains = foldIds false (chainIds m.chains) reqs ∧
    chainIds m2.hetero_chains = foldIds true (chainIds m.hetero_chains) reqs ∧
    (∀ cid, resSerialsAt m2.chains cid
      = foldSerials false cid (resSerialsAt m.chains cid) reqs) ∧
    (∀ cid, resSerialsAt m2.hetero_chains cid
      = foldSerials true cid (resSerialsAt m.hetero_chains cid) reqs) ∧
    (∀ cid rsn, atomsAt m2.chains cid rsn
      = foldAtoms false cid rsn (atomsAt m.chains cid rsn) reqs) ∧
    (∀ cid rsn, atomsAt m2.hetero_chains cid rsn
      = foldAtoms true cid rsn (atomsAt m.hetero_chains cid rsn) reqs) := by
  intro reqs
  induction reqs with
  | nil =>
    intro m m2 h
    cases h
    simp [foldIds, foldSerials, foldAtoms]
  | cons r rs ih =>
    intro m m2 h
    simp only [applyReqs] at h
    cases hr : applyReq m r with
    | err e => rw [hr] at h; exact absurd h (by simp)
    | panic => rw [hr] at h; exact absurd h (by simp)
    | ok m1 =>
      rw [hr] at h
      obtain ⟨i1, i2, s1, s2, t1, t2⟩ := ih m1 m2 h
      unfold applyReq at hr
      cases hhet : r.hetero with
      | false =>
        rw [hhet] at hr
        simp only [if_neg Bool.false_ne_true] at hr
        obtain ⟨hp, hunch⟩ := add_atom_step hr
        obtain ⟨pids, pser, pat⟩ := partUpsert_observers hp
        refine ⟨?_, ?_, ?_, ?_, ?_, ?_⟩
        · rw [i1, pids]
          simp [foldIds, hhet]
        · rw [i2, hunch]
          simp [foldIds, hhet]
        · intro cid
          rw [s1 cid, pser cid]
          by_cases hc : cid = r.chain_id
          · subst hc
            simp [foldSerials, hhet]
          · have hc2 : r.chain_id ≠ cid := fun e => hc e.symm
            simp [foldSerials, hhet, hc, hc2]
        · intro cid
          rw [s2 cid, hunch]
          simp [foldSerials, hhet]
        · intro cid rsn
          rw [t1 cid rsn, pat cid rsn]
          by_cases hc : cid = r.chain_id
          · subst hc
            by_cases hs : rsn = r.residue_serial_number
            · subst hs
              simp [foldAtoms, hhet]
            · have hs2 : r.residue_serial_number ≠ rsn := fun e => hs e.symm
              simp [foldAtoms, hhet, hs, hs2]
          · have hc2 : r.chain_id ≠ cid := fun e => hc e.symm
            simp [foldAtoms, hhet, hc, hc2]
        · intro cid rsn
          rw [t2 cid rsn, hunch]
          simp [foldAtoms, hhet]
      | true =>
        rw [hhet] at hr
        simp only [if_pos rfl] at hr
        obtain ⟨hp, hunch⟩ := add_hetero_atom_step hr
        obtain ⟨pids, pser, pat⟩ := partUpsert_observers hp
        refine ⟨?_, ?_, ?_, ?_, ?_, ?_⟩
        · rw [i1, hunch]
          simp [foldIds, hhet]
        · rw [i2, pids]
          simp [foldIds, hhet]
        · intro cid
          rw [s1 cid, hunch]
          simp [foldSerials, hhet]
        · intro cid
          rw [s2 cid, pser cid]
          by_cases hc : cid = r.chain_id
          · subst hc
            simp [foldSerials, hhet]
          · have hc2 : r.chain_id ≠ cid := fun e => hc e.symm
            simp [foldSerials, hhet, hc, hc2]
        · intro cid rsn
          rw [t1 cid rsn, hunch]
          simp [foldAtoms, hhet]
        · intro cid rsn
          rw [t2 cid rsn, pat cid rsn]
          by_cases hc : cid = r.chain_id
          · subst hc
            by_cases hs : rsn = r.residue_serial_number
            · subst hs
              simp [foldAtoms, hhet]
            · have hs2 : r.residue_serial_number ≠ rsn := fun e => hs e.symm
              simp [foldAtoms, hhet, hs, hs2]
          · have hc2 : r.chain_id ≠ cid := fun e => hc e.symm
            simp [foldAtoms, hhet, hc, hc2]

/-- The id fold is the append-if-new fold of the filtered id sequence. -/
theorem foldIds_filter (het : Bool) : ∀ (reqs : List Req) (acc : List Char),
    foldIds het acc reqs
      = ((reqs.filter (fun r => r.hetero == het)).map Req.chain_id).foldl insert1 acc := by
  intro reqs
  induction reqs with
  | nil => intro acc; rfl
  | cons r rs ih =>
    intro acc
    by_cases hh : r.hetero = het
    · have h1 : foldIds het acc (r :: rs) = foldIds het (insert1 acc r.chain_id) rs := by
        simp [foldIds, hh]
      have h2 : ((r :: rs).filter (fun r => r.hetero == het)).map Req.chain_id
          = r.chain_id :: ((rs.filter (fun r => r.hetero == het)).map Req.chain_id) := by
        simp [List.filter_cons, hh]
      rw [h1, h2, List.foldl_cons]
      exact ih (insert1 acc r.chain_id)
    · have h1 : foldIds het acc (r :: rs) = foldIds het acc rs := by
        simp [foldIds, hh]
      have h2 : (r :: rs).filter (fun r => r.hetero == het)
          = rs.filter (fun r => r.hetero == het) := by
        simp [List.filter_cons, hh]
      rw [h1, h2]
      exact ih acc

/-- The serial fold is the append-if-new fold of the filtered serials. -/
theorem foldSerials_filter (het : Bool) (cid : Char) : ∀ (reqs : List Req) (acc : List Nat),
    foldSerials het cid acc reqs
      = ((reqs.filter (fun r => r.hetero == het && r.chain_id == cid)).map
          Req.residue_serial_number).foldl insert1 acc := by
  intro reqs
  induction reqs with
  | nil => intro acc; rfl
  | cons r rs ih =>
    intro acc
    by_cases hh : r.hetero = het ∧ r.chain_id = cid
    · have hb : (r.hetero == het && r.chain_id == cid) = true := by
        simp [hh.1, hh.2]
      have h1 : foldSerials het cid acc (r :: rs)
          = foldSerials het cid (insert1 acc r.residue_serial_number) rs := by
        simp [foldSerials, hh]
      have h2 : ((r :: rs).filter
            (fun r => r.hetero == het && r.chain_id == cid)).map Req.residue_serial_number
          = r.residue_serial_number :: ((rs.filter
              (fun r => r.hetero == het && r.chain_id == cid)).map Req.residue_serial_number) := by
        simp [List.filter_cons, hb]
      rw [h1, h2, List.foldl_cons]
      exact ih (insert1 acc r.residue_serial_number)
    · have hb : (r.hetero == het && r.chain_id == cid) = false := by
        refine Bool.eq_false_iff.mpr (fun hx => hh ?_)
        obtain ⟨hx1, hx2⟩ := Eq.mp (Bool.and_eq_true _ _) hx
        exact ⟨eq_of_beq hx1, eq_of_beq hx2⟩
      have h1 : foldSerials het cid acc (r :: rs) = foldSerials het cid acc rs := by
        simp [foldSerials, hh]
      have h2 : (r :: rs).filter (fun r => r.hetero == het && r.chain_id == cid)
          = rs.filter (fun r => r.hetero == het && r.chain_id == cid) := by
        simp [List.filter_cons, hb]
      rw [h1, h2]
      exact ih acc

/-- The atom fold appends the filtered atoms in order. -/
theorem foldAtoms_filter (het : Bool) (cid : Char) (rsn : Nat) :
    ∀ (reqs : List Req) (acc : List Atom),
    foldAtoms het cid rsn acc reqs
      = acc ++ (reqs.filter (fun r => r.hetero == het && r.chain_id == cid
          && r.residue_serial_number == rsn)).map Req.atom := by
  intro reqs
  induction reqs with
  | nil => intro acc; simp [foldAtoms]
  | cons r rs ih =>
    intro acc
    by_cases hh : r.hetero = het ∧ r.chain_id = cid ∧ r.residue_serial_number = rsn
    · have hb : (r.hetero == het && r.chain_id == cid
          && r.residue_serial_number == rsn) = true := by
        simp [hh.1, hh.2.1, hh.2.2]
      have h1 : foldAtoms het cid rsn acc (r :: rs)
          = foldAtoms het cid rsn (acc ++ [r.atom]) rs := by
        simp [foldAtoms, hh]
      have h2 : ((r :: rs).filter (fun r => r.hetero == het && r.chain_id == cid
            && r.residue_serial_number == rsn)).map Req.atom
          = r.atom :: ((rs.filter (fun r => r.hetero == het && r.chain_id == cid
              && r.residue_serial_number == rsn)).map Req.atom) := by
        simp [List.filter_cons, hb]
      rw [h1, h2, ih (acc ++ [r.atom])]
      simp
    · have hb : (r.hetero == het && r.chain_id == cid
          && r.residue_serial_number == rsn) = false := by
        refine Bool.eq_false_iff.mpr (fun hx => hh ?_)
        obtain ⟨hx0, hx3⟩ := Eq.mp (Bool.and_eq_true _ _) hx
        obtain ⟨hx1, hx2⟩ := Eq.mp (Bool.and_eq_true _ _) hx0
        exact ⟨eq_of_beq hx1, eq_of_beq hx2, eq_of_beq hx3⟩
      have h1 : foldAtoms het cid rsn acc (r :: rs) = foldAtoms het cid rsn acc rs := by
        simp [foldAtoms, hh]
      have h2 : (r :: rs).filter (fun r => r.hetero == het && r.chain_id == cid
            && r.residue_serial_number == rsn)
          = rs.filter (fun r => r.hetero == het && r.chain_id == cid
              && r.residue_serial_number == rsn) := by
        simp [List.filter_cons, hb]
      rw [h1, h2]
      exact ih acc

/-- C4. Atom insertion is stable and append-only: over any request sequence
on a fresh model, the chain ids of each partition come out in the
first-insertion order of the filtered requests, the residue serial numbers
of every chain come out in first-insertion order of the requests keyed to
it, and the atoms of every residue are exactly the atoms of its requests in
request order — nothing is ever re-sorted by id or serial number, and no
existing chain or residue is reordered by an insertion. -/
theorem c4_iteration_order_is_first_insertion_order (reqs : List Req) (k : Nat)
    (m : Model) (h : applyReqs (Model.new k) reqs = .ok m) :
    chainIds m.chains
      = firstInsertionOrder ((reqs.filter (fun r => r.hetero == false)).map Req.chain_id) ∧
    chainIds m.hetero_chains
      = firstInsertionOrder ((reqs.filter (fun r => r.hetero == true)).map Req.chain_id) ∧
    (∀ cid, resSerialsAt m.chains cid
      = firstInsertionOrder ((reqs.filter
          (fun r => r.hetero == false && r.chain_id == cid)).map Req.residue_serial_number)) ∧
    (∀ cid, resSerialsAt m.hetero_chains cid
      = firstInsertionOrder ((reqs.filter
          (fun r => r.hetero == true && r.chain_id == cid)).map Req.residue_serial_number)) ∧
    (∀ cid rsn, atomsAt m.chains cid rsn
      = (reqs.filter (fun r => r.hetero == false && r.chain_id == cid
          && r.residue_serial_number == rsn)).map Req.atom) ∧
    (∀ cid rsn, atomsAt m.hetero_chains cid rsn
      = (reqs.filter (fun r => r.hetero == true && r.chain_id == cid
          && r.residue_serial_number == rsn)).map Req.atom) := by
  obtain ⟨i1, i2, s1, s2, t1, t2⟩ := applyReqs_observers reqs (Model.new k) m h
  refine ⟨?_, ?_, ?_, ?_, ?_, ?_⟩
  · rw [i1, foldIds_filter]
    rfl
  · rw [i2, foldIds_filter]
    rfl
  · intro cid
    rw [s1 cid, foldSerials_filter]
    rfl
  · intro cid
    rw [s2 cid, foldSerials_filter]
    rfl
  · intro cid rsn
    rw [t1 cid rsn, foldAtoms_filter]
    rfl
  · intro cid rsn
    rw [t2 cid rsn, foldAtoms_filter]
    rfl

/-- Witness: two standard insertions into distinct chains come out in
first-insertion order. -/
theorem c4_witness :
    chainIds (Model.mk 0
        [⟨'A', [⟨1, "MET".toList, [atomA9]⟩]⟩, ⟨'B', [⟨1, "MET".toList, [atom5]⟩]⟩]
        []).chains
      = firstInsertionOrder ((([⟨false, atomA9, 'A', 1, "MET".toList⟩,
          ⟨false, atom5, 'B', 1, "MET".toList⟩] : List Req).filter
            (fun r => r.hetero == false)).map Req.chain_id) :=
  (c4_iteration_order_is_first_insertion_order
    [⟨false, atomA9, 'A', 1, "MET".toList⟩, ⟨false, atom5, 'B', 1, "MET".toList⟩]
    0
    (Model.mk 0
      [⟨'A', [⟨1, "MET".toList, [atomA9]⟩]⟩, ⟨'B', [⟨1, "MET".toList, [atom5]⟩]⟩]
      [])
    (by decide)).1

end Pdbtbx
